import Mathlib

set_option maxHeartbeats 1000000

namespace DTH

/-! Shallow embedding of the distribution-tooling-for-helm core: the transfer
engine of `chartutils/options.go`, the wrap and pull commands of
`cmd/dt/wrap.go` and `cmd/dt/pull.go`, and the manifest reader of
`internal/testutil/testutil.go`.  External collaborators (the OCI registry
client, the filesystem, the progress bar, the logger) are modelled as explicit
oracles and as an event trace: `Env.done` is the cancellation signal
(`ctx.Done()` / `ctx.Err()`), sampled at a logical time that advances by one at
each remote registry call; `Env.fetch` is `remote.Get` plus `crane.Save`;
`Env.push` is `remote.WriteIndex`.  Progress-bar calls and registry calls are
recorded as `Event`s in the trace. -/

/-- One resolved platform digest of a chart image (`imagelock.DigestInfo`,
also `testutil.DigestData`): a normalized `os/arch` string and an
algorithm-prefixed digest. -/
structure DigestInfo where
  arch : String
  digest : String
  deriving DecidableEq

/-- Encoded portion of an algorithm-prefixed digest string, i.e. everything
after the first `:` (go-digest `Digest.Encoded()`). -/
def DigestInfo.encoded (d : DigestInfo) : String :=
  String.mk ((d.digest.data.dropWhile (fun c => c != ':')).drop 1)

/-- `testutil.DigestData` has the same two fields as `imagelock.DigestInfo`. -/
abbrev DigestData := DigestInfo

/-- One logical image referenced by the chart (`imagelock.ChartImage`). -/
structure ChartImage where
  chart : String
  name : String
  image : String
  digests : List DigestInfo
  deriving DecidableEq

/-- `imagelock.ImagesLock`, restricted to the field the transfer engine
reads (`lock.Images`). -/
structure ImagesLock where
  images : List ChartImage
  deriving DecidableEq

/-- os/architecture pair (go-containerregistry `v1.Platform`, the fields used
by this code). -/
structure Platform where
  os : String
  architecture : String
  deriving DecidableEq

/-- A single-platform image archive as stored in the local cache: its bytes
and the platform recorded in its config file (`img.ConfigFile().Platform()`). -/
structure StoredImage where
  content : String
  config : Platform
  deriving DecidableEq

/-- One entry of a manifest list (`mutate.IndexAddendum`: the added image and
its descriptor platform). -/
structure IndexEntry where
  content : String
  platform : Platform
  deriving DecidableEq

/-- A manifest list (`v1.ImageIndex` as assembled by `buildImageIndex`). -/
structure ImageIndex where
  mediaType : String
  entries : List IndexEntry
  deriving DecidableEq

/-- go-containerregistry `types.DockerManifestList`. -/
def DockerManifestList : String :=
  "application/vnd.docker.distribution.manifest.list.v2+json"

/-- go-containerregistry `types.OCIManifestSchema1`. -/
def OCIManifestSchema1 : String :=
  "application/vnd.oci.image.manifest.v1+json"

/-- go-containerregistry `types.DockerManifestSchema2`. -/
def DockerManifestSchema2 : String :=
  "application/vnd.docker.distribution.manifest.v2+json"

/-- Observable actions of a pull/push call: progress-bar calls
(`WithTotal`, `UpdateTitle`, `Add`, the retry `Warnf`) and registry calls
(`remote.Get`, `remote.WriteIndex`). -/
inductive Event where
  | setTotal (n : Nat)
  | updateTitle (title : String)
  | add (n : Nat)
  | retryWarn (tryIdx maxRetries : Nat)
  | fetchCall (ref : String)
  | writeIndex (ref : String) (idx : ImageIndex)
  deriving DecidableEq

/-- The local image cache directory: file name to stored archive. -/
def Cache : Type := String → Option StoredImage

/-- Writing one archive file into the cache (overwrites). -/
def updateCache (c : Cache) (k : String) (v : StoredImage) : Cache :=
  fun k2 => if k2 = k then some v else c k2

/-- The external world of one transfer call: the cancellation signal and the
registry, both indexed by the logical time (number of registry calls made so
far in the call). -/
structure Env where
  done : Nat → Bool
  fetch : Nat → String → Except String StoredImage
  push : Nat → String → ImageIndex → Option String

/-- State threaded through a pull/push call: logical time, the local cache,
and the trace of observable events. -/
structure TransferState where
  time : Nat
  cache : Cache
  trace : List Event

/-- Append events to the trace. -/
def emit (es : List Event) (s : TransferState) : TransferState :=
  { s with trace := s.trace ++ es }

/-- Go `%q` formatting of a string. -/
def quoted (s : String) : String := "\"" ++ s ++ "\""

/-- The error returned on early abort when the context is done
(`fmt.Errorf("cancelled execution")`). -/
def cancelledMsg : String := "cancelled execution"

/-- `fmt.Errorf("failed to pull image %q: %w", name, err)`. -/
def pullFailMsg (name e : String) : String :=
  "failed to pull image " ++ quoted name ++ ": " ++ e

/-- `fmt.Errorf("failed to push image %q: %w", name, err)`. -/
def pushFailMsg (name e : String) : String :=
  "failed to push image " ++ quoted name ++ ": " ++ e

/-- `chartutils.Configuration` (options.go lines 13-19), restricted to the
fields the transfer engine reads; `Log`, `Context` and `ProgressBar` are
external collaborators represented by `Env` and the trace. -/
structure Configuration where
  annotationsKey : String
  maxRetries : Nat

/-- `chartutils.Option`: a functional option mutating the configuration. -/
abbrev ConfigOption := Configuration → Configuration

/-- Modelled from the spec: `imagelock.DefaultAnnotationsKey`, the configured
annotation/declaration key; its value is not under src. -/
def DefaultAnnotationsKey : String := "images"

/-- `chartutils.NewConfiguration` (options.go lines 43-54): defaults plus the
applied options; the default `MaxRetries` is 3. -/
def NewConfiguration (opts : List ConfigOption) : Configuration :=
  opts.foldl (fun cfg opt => opt cfg)
    { annotationsKey := DefaultAnnotationsKey, maxRetries := 3 }

/-- `chartutils.WithMaxRetries` (options.go lines 29-33). -/
def WithMaxRetries (retries : Nat) : ConfigOption :=
  fun cfg => { cfg with maxRetries := retries }

/-- `chartutils.WithAnnotationsKey` (options.go lines 68-72). -/
def WithAnnotationsKey (str : String) : ConfigOption :=
  fun cfg => { cfg with annotationsKey := str }

/-- Modelled from the spec: `utils.ExecuteWithRetry` (not under src) -- an
explicit loop over the attempt count that invokes the callback with the
attempt index and the previous error, stops on success, and returns the last
error once the attempts are exhausted (spec 4.4 and 9). -/
def retryLoop (cb : Nat → Option String → TransferState → TransferState × Option String) :
    Nat → Nat → Option String → TransferState → TransferState × Option String
  | 0, _, prev, s => (s, prev)
  | fuel + 1, tryIdx, prev, s =>
    let r := cb tryIdx prev s
    match r.2 with
    | none => (r.1, none)
    | some e => retryLoop cb fuel (tryIdx + 1) (some e) r.1

/-- Modelled from the spec: `utils.ExecuteWithRetry(maxRetries, cb)` makes up
to `maxRetries` attempts starting at attempt index 0 with no previous error. -/
def ExecuteWithRetry (maxRetries : Nat)
    (cb : Nat → Option String → TransferState → TransferState × Option String)
    (s : TransferState) : TransferState × Option String :=
  retryLoop cb maxRetries 0 none s

/-- `chartutils.getNumberOfArtifacts` (options.go lines 92-98): total number
of digest entries across the image list. -/
def getNumberOfArtifacts (images : List ChartImage) : Nat :=
  images.foldl (fun n img => n + img.digests.length) 0

/-- `chartutils.getImageTarFile` (options.go lines 237-239):
`filepath.Join(imagesDir, fmt.Sprintf("%s.tar", dgst.Digest.Encoded()))`. -/
def getImageTarFile (imagesDir : String) (dgst : DigestInfo) : String :=
  imagesDir ++ "/" ++ dgst.encoded ++ ".tar"

/-- The reference pulled for one digest entry (options.go line 244):
`fmt.Sprintf("%s@%s", image, digest.Digest)`. -/
def pullRef (image : String) (d : DigestInfo) : String :=
  image ++ "@" ++ d.digest

/-- `chartutils.pullImage` (options.go lines 241-263): resolve the per-digest
reference `image@digest`, fetch it from the registry (`remote.Get` plus
`rmt.Image()`), and save it to the cache file named by the encoded digest
(`crane.Save`).  Reference parsing and the local save are external collaborator
calls modelled as always succeeding on the fetched image. -/
def pullAttempt (env : Env) (imagesDir image : String) (d : DigestInfo)
    (s : TransferState) : TransferState × Option String :=
  match env.fetch s.time (pullRef image d) with
  | Except.error e =>
    ({ time := s.time + 1, cache := s.cache,
       trace := s.trace ++ [Event.fetchCall (pullRef image d)] }, some e)
  | Except.ok img =>
    ({ time := s.time + 1,
       cache := updateCache s.cache (getImageTarFile imagesDir d) img,
       trace := s.trace ++ [Event.fetchCall (pullRef image d)] }, none)

/-- The retry callback of `PullImages` (options.go lines 125-138): on a retry
(`try > 0`), if the context is done return the previous error without
retrying, otherwise report the retry attempt count through the progress bar
and attempt the pull again. -/
def pullCallback (env : Env) (cfg : Configuration) (imagesDir image : String)
    (d : DigestInfo) (tryIdx : Nat) (prev : Option String)
    (s : TransferState) : TransferState × Option String :=
  if 0 < tryIdx then
    if env.done s.time then (s, prev)
    else pullAttempt env imagesDir image d
      (emit [Event.retryWarn tryIdx cfg.maxRetries] s)
  else pullAttempt env imagesDir image d s

/-- Progress title of one pull unit (options.go line 124). -/
def pullTitle (img : ChartImage) (d : DigestInfo) : String :=
  "Saving image " ++ img.chart ++ "/" ++ img.name ++ " " ++ img.image
    ++ " (" ++ d.arch ++ ")"

/-- One transfer unit of `PullImages` (options.go lines 118-142): check the
cancellation signal before starting; then advance the progress bar, run the
pull under the retry policy, and wrap a final error with the image name. -/
def pullUnit (env : Env) (cfg : Configuration) (imagesDir : String)
    (img : ChartImage) (d : DigestInfo) (s : TransferState) :
    TransferState × Option String :=
  if env.done s.time then (s, some cancelledMsg)
  else
    let r := ExecuteWithRetry cfg.maxRetries
      (pullCallback env cfg imagesDir img.image d)
      (emit [Event.add 1, Event.updateTitle (pullTitle img d)] s)
    (r.1, Option.map (pullFailMsg img.name) r.2)

/-- The inner loop of `PullImages` over one image's digest entries
(options.go line 117); a unit error aborts the whole call. -/
def pullDigests (env : Env) (cfg : Configuration) (imagesDir : String)
    (img : ChartImage) : List DigestInfo → TransferState →
    TransferState × Option String
  | [], s => (s, none)
  | d :: rest, s =>
    let r := pullUnit env cfg imagesDir img d s
    match r.2 with
    | none => pullDigests env cfg imagesDir img rest r.1
    | some e => (r.1, some e)

/-- The outer loop of `PullImages` over the lock's images (options.go
line 116). -/
def pullLoop (env : Env) (cfg : Configuration) (imagesDir : String) :
    List ChartImage → TransferState → TransferState × Option String
  | [], s => (s, none)
  | img :: rest, s =>
    let r := pullDigests env cfg imagesDir img img.digests s
    match r.2 with
    | none => pullLoop env cfg imagesDir rest r.1
    | some e => (r.1, some e)

/-- `chartutils.PullImages` (options.go lines 101-148): build the
configuration from the options, size the progress bar with
`getNumberOfArtifacts`, set the title, and run the nested loops starting from
the given cache (`imagesDir` creation is an external filesystem call). -/
def PullImages (env : Env) (lock : ImagesLock) (imagesDir : String)
    (opts : List ConfigOption) (cache0 : Cache) :
    TransferState × Option String :=
  let cfg := NewConfiguration opts
  let s0 : TransferState :=
    { time := 0, cache := cache0,
      trace := [Event.setTotal (getNumberOfArtifacts lock.images),
                Event.updateTitle "Pulling Images"] }
  pullLoop env cfg imagesDir lock.images s0

/-- The body of `buildImageIndex`'s loop over digest entries (options.go
lines 194-215): load each cached per-platform archive (`crane.Load`; missing
file is an error) and attach the platform recorded in that image's own config
file (`cf.Platform()`). -/
def buildImageIndexAux (cache : Cache) (imagesDir : String) :
    List DigestInfo → Except String (List IndexEntry)
  | [] => Except.ok []
  | d :: rest =>
    match cache (getImageTarFile imagesDir d) with
    | none =>
      Except.error ("loading " ++ getImageTarFile imagesDir d
        ++ " as tarball: file does not exist")
    | some st =>
      match buildImageIndexAux cache imagesDir rest with
      | Except.error e => Except.error e
      | Except.ok es => Except.ok ({ content := st.content, platform := st.config } :: es)

/-- `chartutils.buildImageIndex` (options.go lines 190-217): assemble the
per-platform archives of one chart image into a single manifest list with the
`DockerManifestList` media type. -/
def buildImageIndex (cache : Cache) (image : ChartImage) (imagesDir : String) :
    Except String ImageIndex :=
  match buildImageIndexAux cache imagesDir image.digests with
  | Except.error e => Except.error e
  | Except.ok es => Except.ok { mediaType := DockerManifestList, entries := es }

/-- `chartutils.pushImage` (options.go lines 219-235): build the image index
from the cache, parse the destination reference (external collaborator), and
write the index to the registry once. -/
def pushImage (env : Env) (imgData : ChartImage) (imagesDir : String)
    (s : TransferState) : TransferState × Option String :=
  match buildImageIndex s.cache imgData imagesDir with
  | Except.error e => (s, some ("failed to build image index: " ++ e))
  | Except.ok idx =>
    match env.push s.time imgData.image idx with
    | some e =>
      ({ time := s.time + 1, cache := s.cache,
         trace := s.trace ++ [Event.writeIndex imgData.image idx] },
        some ("failed to write image index: " ++ e))
    | none =>
      ({ time := s.time + 1, cache := s.cache,
         trace := s.trace ++ [Event.writeIndex imgData.image idx] }, none)

/-- The retry callback of `PushImages` (options.go lines 171-181). -/
def pushCallback (env : Env) (cfg : Configuration) (imagesDir : String)
    (imgData : ChartImage) (tryIdx : Nat) (prev : Option String)
    (s : TransferState) : TransferState × Option String :=
  if 0 < tryIdx then
    if env.done s.time then (s, prev)
    else pushImage env imgData imagesDir
      (emit [Event.retryWarn tryIdx cfg.maxRetries] s)
  else pushImage env imgData imagesDir s

/-- Progress title of one push unit (options.go line 170). -/
def pushTitle (img : ChartImage) : String :=
  "Pushing image " ++ quoted img.image

/-- One transfer unit of `PushImages` (options.go lines 164-185): one chart
image, all platform variants in a single manifest-list push. -/
def pushUnit (env : Env) (cfg : Configuration) (imagesDir : String)
    (img : ChartImage) (s : TransferState) : TransferState × Option String :=
  if env.done s.time then (s, some cancelledMsg)
  else
    let r := ExecuteWithRetry cfg.maxRetries
      (pushCallback env cfg imagesDir img)
      (emit [Event.add 1, Event.updateTitle (pushTitle img)] s)
    (r.1, Option.map (pushFailMsg img.name) r.2)

/-- The loop of `PushImages` over the lock's images (options.go line 163). -/
def pushLoop (env : Env) (cfg : Configuration) (imagesDir : String) :
    List ChartImage → TransferState → TransferState × Option String
  | [], s => (s, none)
  | img :: rest, s =>
    let r := pushUnit env cfg imagesDir img s
    match r.2 with
    | none => pushLoop env cfg imagesDir rest r.1
    | some e => (r.1, some e)

/-- `chartutils.PushImages` (options.go lines 151-188): the progress bar is
sized with the number of chart images, not the number of digest entries. -/
def PushImages (env : Env) (lock : ImagesLock) (imagesDir : String)
    (opts : List ConfigOption) (cache0 : Cache) :
    TransferState × Option String :=
  let cfg := NewConfiguration opts
  let s0 : TransferState :=
    { time := 0, cache := cache0,
      trace := [Event.setTotal lock.images.length,
                Event.updateTitle "Pushing Images"] }
  pushLoop env cfg imagesDir lock.images s0

/-- The progress totals announced in a trace (`WithTotal` calls). -/
def totalsOf (tr : List Event) : List Nat :=
  tr.filterMap (fun e => match e with
    | Event.setTotal n => some n
    | _ => none)

/-- The registry references fetched in a trace (`remote.Get` calls). -/
def fetchRefs (tr : List Event) : List String :=
  tr.filterMap (fun e => match e with
    | Event.fetchCall r => some r
    | _ => none)

/-- The manifest lists written in a trace (`remote.WriteIndex` calls). -/
def writeEvents (tr : List Event) : List (String × ImageIndex) :=
  tr.filterMap (fun e => match e with
    | Event.writeIndex r i => some (r, i)
    | _ => none)

/-- Loading one digest entry's cached archive as a manifest-list entry, with
the platform taken from the stored image's own config (used to state what
`buildImageIndex` produces). -/
def loadEntry (cache : Cache) (imagesDir : String) (d : DigestInfo) :
    Option IndexEntry :=
  (cache (getImageTarFile imagesDir d)).map
    (fun st => { content := st.content, platform := st.config })

/-- The trace segment produced by the retries of one all-failing transfer
unit: the retry warning for attempt `start` followed by its fetch, and so on. -/
def retryTail (ref : String) (maxRetries : Nat) : Nat → Nat → List Event
  | _, 0 => []
  | start, fuel + 1 =>
    Event.retryWarn start maxRetries :: Event.fetchCall ref
      :: retryTail ref maxRetries (start + 1) fuel

/-- The full fetch/retry trace of one transfer unit all of whose attempts
fail: a first fetch, then `maxRetries - 1` retries each reported before its
fetch. -/
def failTrace (ref : String) (maxRetries : Nat) : List Event :=
  Event.fetchCall ref :: retryTail ref maxRetries 1 (maxRetries - 1)

/-- The cache files a successful pull of the given digest list writes, with
the contents the registry serves at time 0 (used to state cache idempotence;
entries whose fetch fails are dropped). -/
def writesD (env : Env) (imagesDir image : String) :
    List DigestInfo → List (String × StoredImage)
  | [] => []
  | d :: rest =>
    match env.fetch 0 (pullRef image d) with
    | Except.ok st => (getImageTarFile imagesDir d, st) :: writesD env imagesDir image rest
    | Except.error _ => writesD env imagesDir image rest

/-- The cache files a successful pull of a whole image list writes. -/
def writesL (env : Env) (imagesDir : String) :
    List ChartImage → List (String × StoredImage)
  | [] => []
  | img :: rest =>
    writesD env imagesDir img.image img.digests ++ writesL env imagesDir rest

/-- Applying a list of cache writes in order (later writes win). -/
def applyWrites (c : Cache) : List (String × StoredImage) → Cache
  | [] => c
  | kv :: ws => applyWrites (updateCache c kv.1 kv.2) ws

/-- The last value written to a key by a write list, if any. -/
def lastVal : List (String × StoredImage) → String → Option StoredImage
  | [], _ => none
  | kv :: ws, k =>
    match lastVal ws k with
    | some v => some v
    | none => if k = kv.1 then some kv.2 else none

/-- Whether `pat` occurs as a contiguous substring: prefix test on char
lists. -/
def listPre : List Char → List Char → Bool
  | [], _ => true
  | _ :: _, [] => false
  | a :: pa, b :: hb => a == b && listPre pa hb

/-- Whether the pattern occurs anywhere in the haystack (char lists). -/
def listOcc (pat : List Char) : List Char → Bool
  | [] => listPre pat []
  | b :: hb => listPre pat (b :: hb) || listOcc pat hb

/-- Whether `pat` occurs as a substring of `s`. -/
def strOccurs (pat s : String) : Bool := listOcc pat.data s.data

/-- A chart as the dt commands see it (`chartutils.Chart`, not under src):
its identity (`chart.Name()`, `chart.Metadata.Version`), its root directory
contents, and the image references declared in its annotations. -/
structure DeclaredImage where
  name : String
  image : String
  deriving DecidableEq

structure Chart where
  name : String
  version : String
  rootFiles : List (String × String)
  declaredImages : List DeclaredImage

/-- `utils.TarConfig`: the internal path prefix of the produced archive
(the `Prefix` field). -/
structure TarConfig where
  prefixDir : String

/-- A produced archive: its internal entries. -/
structure Archive where
  entries : List (String × String)
  deriving DecidableEq

/-- Modelled from the spec: `utils.TarContext` (not under src) archives the
root directory contents into a compressed archive whose internal paths live
under the configured path prefix (spec 4.5). -/
def TarContext (rootFiles : List (String × String)) (cfg : TarConfig) : Archive :=
  { entries := rootFiles.map (fun pc => (cfg.prefixDir ++ "/" ++ pc.1, pc.2)) }

/-- `compressChart` (cmd/dt/pull.go lines 35-39): archive the chart root with
the internal path prefix `fmt.Sprintf("%s-%s", chart.Name(),
chart.Metadata.Version)`; the caller only chooses the output file, which does
not affect the archive contents. -/
def compressChart (chart : Chart) (outputFile : String) : Archive :=
  let _ := outputFile
  TarContext chart.rootFiles { prefixDir := chart.name ++ "-" ++ chart.version }

/-- The steps of `wrapChart` that matter to the lock lifecycle. -/
inductive WrapAction where
  | verifyStep
  | generateStep (platforms : List String)
  | writeLock (lock : ImagesLock)
  | pullStep
  | compressStep (outputFile : String)
  deriving DecidableEq

/-- The collaborators of `wrapChart` that are not under src: the registry
introspection used by lock generation, the lock verifier, and the outcomes of
the pull and compress steps. -/
structure WrapEnv where
  resolve : String → List DigestInfo
  verify : Chart → ImagesLock → Option String
  pullErr : Option String
  compressErr : Option String

/-- Modelled from the spec: the per-image body of lock generation (spec 4.2).
Each declared image is resolved to its platform digests, platforms outside a
non-empty filter set are dropped, and an image left with no platforms is an
error rather than an empty entry. -/
def lockImagesFor (resolve : String → List DigestInfo) (chartName : String)
    (platforms : List String) : List DeclaredImage →
    Except String (List ChartImage)
  | [] => Except.ok []
  | di :: rest =>
    let ds := (resolve di.image).filter
      (fun d => platforms.isEmpty || platforms.contains d.arch)
    if ds.isEmpty then
      Except.error ("no platforms resolved for image " ++ di.image)
    else
      match lockImagesFor resolve chartName platforms rest with
      | Except.error e => Except.error e
      | Except.ok is =>
        Except.ok ({ chart := chartName, name := di.name,
                     image := di.image, digests := ds } :: is)

/-- Modelled from the spec: `createImagesLock` (not under src) builds an
Images.lock from the chart's declared images (its annotations), restricted to
the requested platforms (spec 4.2; an empty platform list keeps all). -/
def createImagesLock (resolve : String → List DigestInfo) (chart : Chart)
    (platforms : List String) : Except String ImagesLock :=
  match lockImagesFor resolve chart.name platforms chart.declaredImages with
  | Except.error e => Except.error e
  | Except.ok is => Except.ok { images := is }

/-- Default wrap output file name (cmd/dt/wrap.go lines 65-71):
`fmt.Sprintf("%s-%s.wrap.tgz", chart.Name(), chart.Metadata.Version)`. -/
def wrapOutputFile (chart : Chart) (outputFile : String) : String :=
  if outputFile = "" then chart.name ++ "-" ++ chart.version ++ ".wrap.tgz"
  else outputFile

/-- The tail of `wrapChart` after the lock is settled (cmd/dt/wrap.go
lines 72-99): pull the images, then compress the chart. -/
def wrapFinish (env : WrapEnv) (chart : Chart) (outputFile : String)
    (lockContents : Option ImagesLock) (acts : List WrapAction) :
    (Option ImagesLock × List WrapAction) × Option String :=
  match env.pullErr with
  | some e => ((lockContents, acts ++ [WrapAction.pullStep]), some e)
  | none =>
    match env.compressErr with
    | some e =>
      ((lockContents, acts ++ [WrapAction.pullStep,
          WrapAction.compressStep (wrapOutputFile chart outputFile)]),
        some ("failed to wrap Helm chart: " ++ e))
    | none =>
      ((lockContents, acts ++ [WrapAction.pullStep,
          WrapAction.compressStep (wrapOutputFile chart outputFile)]), none)

/-- `wrapChart` (cmd/dt/wrap.go lines 41-64), tracking the lock file's
contents at the chart's lock path and the steps taken: when the lock file
exists it is verified and never rewritten; when it is absent a lock is
generated from the chart's annotations restricted to the requested platforms
and written to that path, before the images are pulled.  `PullImages` writes
only digest-named `.tar` files inside the images directory, so the lock path
contents are unaffected by the pull step. -/
def wrapChart (env : WrapEnv) (chart : Chart) (outputFile : String)
    (platforms : List String) (lockContents : Option ImagesLock) :
    (Option ImagesLock × List WrapAction) × Option String :=
  match lockContents with
  | some lock =>
    match env.verify chart lock with
    | some e => ((some lock, [WrapAction.verifyStep]),
        some ("Failed to verify lock: " ++ e))
    | none => wrapFinish env chart outputFile (some lock) [WrapAction.verifyStep]
  | none =>
    match createImagesLock env.resolve chart platforms with
    | Except.error e => ((none, [WrapAction.generateStep platforms]),
        some ("Failed to generate lock: " ++ e))
    | Except.ok lock =>
      wrapFinish env chart outputFile (some lock)
        [WrapAction.generateStep platforms, WrapAction.writeLock lock]

/-- A manifest-list entry as returned by the registry
(go-containerregistry `v1.Descriptor`, fields read by
`ReadRemoteImageManifest`). -/
structure Descriptor where
  mediaType : String
  annotations : List (String × String)
  platform : Option Platform
  digest : String
  deriving DecidableEq

/-- `v1.IndexManifest`, field read by `ReadRemoteImageManifest`. -/
structure IndexManifest where
  manifests : List Descriptor
  deriving DecidableEq

/-- Go map indexing `m.Annotations[key]`: empty string when absent. -/
def annotationValue (as : List (String × String)) (key : String) : String :=
  match as.find? (fun kv => kv.1 == key) with
  | some kv => kv.2
  | none => ""

/-- The digests map built by `ReadRemoteImageManifest`. -/
def DigestMap : Type := String → Option DigestData

/-- Go map assignment `digests[arch] = v`. -/
def setDigest (m : DigestMap) (k : String) (v : DigestData) : DigestMap :=
  fun k2 => if k2 = k then some v else m k2

/-- The loop of `ReadRemoteImageManifest` over the index's manifests
(testutil.go lines 268-289): skip entries annotated as attestation manifests
by the fixed annotation string, keep image-manifest media types that carry a
platform, and record unknown media types as errors. -/
def readManifests : List Descriptor → DigestMap → List String →
    DigestMap × List String
  | [], m, errs => (m, errs)
  | d :: rest, m, errs =>
    if annotationValue d.annotations "vnd.docker.reference.type"
        = "attestation-manifest" then
      readManifests rest m errs
    else if d.mediaType = OCIManifestSchema1 ∨ d.mediaType = DockerManifestSchema2 then
      match d.platform with
      | none => readManifests rest m errs
      | some p =>
        let arch := p.os ++ "/" ++ p.architecture
        readManifests rest (setDigest m arch { arch := arch, digest := d.digest }) errs
    else
      readManifests rest m
        (errs ++ ["unknown media type " ++ quoted d.mediaType])

/-- `testutil.ReadRemoteImageManifest` (testutil.go lines 248-291) after the
external fetch and JSON decoding of the index manifest: the (platform, digest)
map and the accumulated unknown-media-type errors. -/
def ReadRemoteImageManifest (idx : IndexManifest) : DigestMap × List String :=
  readManifests idx.manifests (fun _ => none) []

/-! Concrete fixtures used by closed witnesses. -/

/-- A registry oracle that always succeeds and is never cancelled. -/
def envOK : Env :=
  { done := fun _ => false,
    fetch := fun _ r =>
      Except.ok { content := "blob:" ++ r,
                  config := { os := "linux", architecture := "amd64" } },
    push := fun _ _ _ => none }

/-- A registry oracle that always fails fetches with `boom` and is never
cancelled. -/
def envBoom : Env :=
  { done := fun _ => false,
    fetch := fun _ _ => Except.error "boom",
    push := fun _ _ _ => none }

/-- A cancellation signal that is already set. -/
def envDone : Env :=
  { done := fun _ => true,
    fetch := fun _ _ => Except.error "unreachable",
    push := fun _ _ _ => none }

/-- A one-image, one-digest lock. -/
def lockW : ImagesLock :=
  { images := [{ chart := "c", name := "app", image := "repo/app",
                 digests := [{ arch := "linux/amd64", digest := "sha256:aaa" }] }] }

/-- The empty cache. -/
def cacheNil : Cache := fun _ => none

/-! Helper lemmas: trace bookkeeping for the pull loop. -/

@[simp]
lemma emit_time (es : List Event) (s : TransferState) : (emit es s).time = s.time := rfl

@[simp]
lemma emit_cache (es : List Event) (s : TransferState) : (emit es s).cache = s.cache := rfl

@[simp]
lemma emit_trace (es : List Event) (s : TransferState) :
    (emit es s).trace = s.trace ++ es := rfl

@[simp]
lemma totalsOf_append (a b : List Event) :
    totalsOf (a ++ b) = totalsOf a ++ totalsOf b := by
  simp [totalsOf]

@[simp]
lemma fetchRefs_append (a b : List Event) :
    fetchRefs (a ++ b) = fetchRefs a ++ fetchRefs b := by
  simp [fetchRefs]

@[simp]
lemma writeEvents_append (a b : List Event) :
    writeEvents (a ++ b) = writeEvents a ++ writeEvents b := by
  simp [writeEvents]

/-- Trace extension produced by the pull machinery of one unit: only events
that are not totals, and whose fetches all target `ref`, get appended. -/
def PullExt (ref : String) (s s2 : TransferState) : Prop :=
  ∃ es, s2.trace = s.trace ++ es ∧ totalsOf es = [] ∧
    ∀ r ∈ fetchRefs es, r = ref

lemma pullExt_refl (ref : String) (s : TransferState) : PullExt ref s s :=
  ⟨[], by simp, by simp [totalsOf], by simp [fetchRefs]⟩

lemma pullExt_trans {ref : String} {s s2 s3 : TransferState}
    (h1 : PullExt ref s s2) (h2 : PullExt ref s2 s3) : PullExt ref s s3 := by
  obtain ⟨es1, he1, ht1, hf1⟩ := h1
  obtain ⟨es2, he2, ht2, hf2⟩ := h2
  refine ⟨es1 ++ es2, by simp [he2, he1], by simp [ht1, ht2], ?_⟩
  intro r hr
  simp only [fetchRefs_append, List.mem_append] at hr
  rcases hr with hr | hr
  · exact hf1 r hr
  · exact hf2 r hr

lemma pullAttempt_trace (env : Env) (imagesDir image : String) (d : DigestInfo)
    (s : TransferState) :
    (pullAttempt env imagesDir image d s).1.trace
      = s.trace ++ [Event.fetchCall (pullRef image d)] := by
  unfold pullAttempt
  cases env.fetch s.time (pullRef image d) <;> rfl

lemma pullAttempt_ext (env : Env) (imagesDir image : String) (d : DigestInfo)
    (s : TransferState) :
    PullExt (pullRef image d) s (pullAttempt env imagesDir image d s).1 :=
  ⟨[Event.fetchCall (pullRef image d)], pullAttempt_trace env imagesDir image d s,
    by simp [totalsOf], by simp [fetchRefs]⟩

lemma pullCallback_ext (env : Env) (cfg : Configuration)
    (imagesDir image : String) (d : DigestInfo) (tryIdx : Nat)
    (prev : Option String) (s : TransferState) :
    PullExt (pullRef image d) s
      (pullCallback env cfg imagesDir image d tryIdx prev s).1 := by
  unfold pullCallback
  by_cases h0 : 0 < tryIdx
  · simp only [h0, if_true]
    by_cases hd : env.done s.time
    · simp [hd]
      exact pullExt_refl _ _
    · simp only [hd, Bool.false_eq_true, if_false]
      refine pullExt_trans
        (⟨[Event.retryWarn tryIdx cfg.maxRetries], by simp, by simp [totalsOf],
          by simp [fetchRefs]⟩ : PullExt (pullRef image d) s
            (emit [Event.retryWarn tryIdx cfg.maxRetries] s)) ?_
      exact pullAttempt_ext env imagesDir image d _
  · simp only [h0, if_false]
    exact pullAttempt_ext env imagesDir image d s

lemma retryLoop_ext {ref : String}
    (cb : Nat → Option String → TransferState → TransferState × Option String)
    (hcb : ∀ t p s, PullExt ref s (cb t p s).1) :
    ∀ (fuel tryIdx : Nat) (prev : Option String) (s : TransferState),
      PullExt ref s (retryLoop cb fuel tryIdx prev s).1 := by
  intro fuel
  induction fuel with
  | zero => intro tryIdx prev s; exact pullExt_refl _ _
  | succ n ih =>
    intro tryIdx prev s
    unfold retryLoop
    cases h : (cb tryIdx prev s).2 with
    | none => simpa [h] using hcb tryIdx prev s
    | some e =>
      simp only [h]
      exact pullExt_trans (hcb tryIdx prev s) (ih (tryIdx + 1) (some e) _)

lemma pullUnit_ext (env : Env) (cfg : Configuration) (imagesDir : String)
    (img : ChartImage) (d : DigestInfo) (s : TransferState) :
    PullExt (pullRef img.image d) s (pullUnit env cfg imagesDir img d s).1 := by
  unfold pullUnit
  by_cases hd : env.done s.time
  · simp only [hd, if_true]
    exact pullExt_refl _ _
  · simp only [hd, Bool.false_eq_true, if_false]
    refine pullExt_trans
      (⟨[Event.add 1, Event.updateTitle (pullTitle img d)], by simp,
        by simp [totalsOf], by simp [fetchRefs]⟩ :
        PullExt (pullRef img.image d) s
          (emit [Event.add 1, Event.updateTitle (pullTitle img d)] s)) ?_
    exact retryLoop_ext _ (fun t p s2 => pullCallback_ext env cfg imagesDir img.image d t p s2)
      cfg.maxRetries 0 none _

/-- Trace extension of the whole pull loop: only non-total events whose
fetches all target some digest entry of the image list. -/
def LockExt (imgs : List ChartImage) (s s2 : TransferState) : Prop :=
  ∃ es, s2.trace = s.trace ++ es ∧ totalsOf es = [] ∧
    ∀ r ∈ fetchRefs es, ∃ img ∈ imgs, ∃ d ∈ img.digests, r = pullRef img.image d

lemma lockExt_refl (imgs : List ChartImage) (s : TransferState) :
    LockExt imgs s s :=
  ⟨[], by simp, by simp [totalsOf], by simp [fetchRefs]⟩

lemma lockExt_trans {imgs : List ChartImage} {s s2 s3 : TransferState}
    (h1 : LockExt imgs s s2) (h2 : LockExt imgs s2 s3) : LockExt imgs s s3 := by
  obtain ⟨es1, he1, ht1, hf1⟩ := h1
  obtain ⟨es2, he2, ht2, hf2⟩ := h2
  refine ⟨es1 ++ es2, by simp [he2, he1], by simp [ht1, ht2], ?_⟩
  intro r hr
  simp only [fetchRefs_append, List.mem_append] at hr
  rcases hr with hr | hr
  · exact hf1 r hr
  · exact hf2 r hr

lemma lockExt_mono {imgs imgs2 : List ChartImage} {s s2 : TransferState}
    (hsub : ∀ i ∈ imgs, i ∈ imgs2) (h : LockExt imgs s s2) :
    LockExt imgs2 s s2 := by
  obtain ⟨es, he, ht, hf⟩ := h
  refine ⟨es, he, ht, ?_⟩
  intro r hr
  obtain ⟨img, hmem, d, hd, hrr⟩ := hf r hr
  exact ⟨img, hsub img hmem, d, hd, hrr⟩

lemma PullExt.toLockExt {img : ChartImage} {d : DigestInfo} {imgs : List ChartImage}
    {s s2 : TransferState} (himg : img ∈ imgs) (hd : d ∈ img.digests)
    (h : PullExt (pullRef img.image d) s s2) : LockExt imgs s s2 := by
  obtain ⟨es, he, ht, hf⟩ := h
  exact ⟨es, he, ht, fun r hr => ⟨img, himg, d, hd, hf r hr⟩⟩

lemma pullDigests_ext (env : Env) (cfg : Configuration) (imagesDir : String)
    (img : ChartImage) (imgs : List ChartImage) (himg : img ∈ imgs) :
    ∀ (ds : List DigestInfo) (s : TransferState),
    (∀ d ∈ ds, d ∈ img.digests) →
    LockExt imgs s (pullDigests env cfg imagesDir img ds s).1 := by
  intro ds
  induction ds with
  | nil => intro s _; exact lockExt_refl _ _
  | cons d rest ih =>
    intro s hsub
    unfold pullDigests
    have hu : LockExt imgs s (pullUnit env cfg imagesDir img d s).1 :=
      PullExt.toLockExt himg (hsub d (by simp))
        (pullUnit_ext env cfg imagesDir img d s)
    cases h : (pullUnit env cfg imagesDir img d s).2 with
    | none =>
      simp only [h]
      exact lockExt_trans hu (ih _ (fun x hx => hsub x (by simp [hx])))
    | some e => simpa [h] using hu

lemma pullLoop_ext (env : Env) (cfg : Configuration) (imagesDir : String)
    (imgs : List ChartImage) :
    ∀ (rest : List ChartImage) (s : TransferState),
    (∀ i ∈ rest, i ∈ imgs) →
    LockExt imgs s (pullLoop env cfg imagesDir rest s).1 := by
  intro rest
  induction rest with
  | nil => intro s _; exact lockExt_refl _ _
  | cons img rst ih =>
    intro s hsub
    unfold pullLoop
    have hd : LockExt imgs s (pullDigests env cfg imagesDir img img.digests s).1 :=
      pullDigests_ext env cfg imagesDir img imgs (hsub img (by simp))
        img.digests s (fun d hd => hd)
    cases h : (pullDigests env cfg imagesDir img img.digests s).2 with
    | none =>
      simp only [h]
      exact lockExt_trans hd (ih _ (fun x hx => hsub x (by simp [hx])))
    | some e => simpa [h] using hd

lemma getNumberOfArtifacts_eq_sum (imgs : List ChartImage) :
    getNumberOfArtifacts imgs = (imgs.map (fun img => img.digests.length)).sum := by
  unfold getNumberOfArtifacts
  have h : ∀ (l : List ChartImage) (a : Nat),
      l.foldl (fun n img => n + img.digests.length) a
        = a + (l.map (fun img => img.digests.length)).sum := by
    intro l
    induction l with
    | nil => intro a; simp
    | cons x xs ih => intro a; simp [ih, Nat.add_assoc]
  simpa using h imgs 0

/-- C1: For every lock and every Chart Image in it, the pull operation fetches
exactly the reference formed from the image's registry reference plus the
digest recorded in the lock's Digest Entry (`image@digest`); it never
re-resolves a tag to a digest before transferring: every registry fetch made
by `PullImages` targets the literal concatenation of a lock image's reference
and one of its locked digests. -/
theorem pull_fetches_only_locked_references (env : Env) (lock : ImagesLock)
    (imagesDir : String) (opts : List ConfigOption) (cache0 : Cache)
    (r : String) (hr : r ∈ fetchRefs (PullImages env lock imagesDir opts cache0).1.trace) :
    ∃ img ∈ lock.images, ∃ d ∈ img.digests, r = img.image ++ "@" ++ d.digest := by
  obtain ⟨es, he, _, hf⟩ :=
    pullLoop_ext env (NewConfiguration opts) imagesDir lock.images lock.images
      { time := 0, cache := cache0,
        trace := [Event.setTotal (getNumberOfArtifacts lock.images),
                  Event.updateTitle "Pulling Images"] }
      (fun i hi => hi)
  rw [show (PullImages env lock imagesDir opts cache0)
      = pullLoop env (NewConfiguration opts) imagesDir lock.images
        { time := 0, cache := cache0,
          trace := [Event.setTotal (getNumberOfArtifacts lock.images),
                    Event.updateTitle "Pulling Images"] } from rfl, he] at hr
  simp only [fetchRefs_append, List.mem_append] at hr
  rcases hr with hr | hr
  · simp [fetchRefs] at hr
  · obtain ⟨img, himg, d, hd, hrr⟩ := hf r hr
    exact ⟨img, himg, d, hd, hrr⟩

/-- Closed witness for C1: in a concrete pull, the fetch of the locked
reference appears in the trace and the theorem locates it in the lock. -/
theorem pull_fetches_only_locked_references_witness :
    "repo/app@sha256:aaa"
        ∈ fetchRefs (PullImages envOK lockW "images" [] cacheNil).1.trace ∧
    ∃ img ∈ lockW.images, ∃ d ∈ img.digests,
      "repo/app@sha256:aaa" = img.image ++ "@" ++ d.digest := by
  constructor
  · decide
  · exact pull_fetches_only_locked_references envOK lockW "images" [] cacheNil
      "repo/app@sha256:aaa" (by decide)

/-- C2: For every lock, the total unit count reported to the progress channel
by the pull operation equals the sum of Digest Entries across all Chart
Images in the lock (each platform variant counts as one unit), not the number
of Chart Images: the only total ever announced is `getNumberOfArtifacts`,
which is that sum. -/
theorem pull_progress_total_is_digest_count (env : Env) (lock : ImagesLock)
    (imagesDir : String) (opts : List ConfigOption) (cache0 : Cache) :
    totalsOf (PullImages env lock imagesDir opts cache0).1.trace
      = [(lock.images.map (fun img => img.digests.length)).sum] ∧
    getNumberOfArtifacts lock.images
      = (lock.images.map (fun img => img.digests.length)).sum := by
  obtain ⟨es, he, ht, _⟩ :=
    pullLoop_ext env (NewConfiguration opts) imagesDir lock.images lock.images
      { time := 0, cache := cache0,
        trace := [Event.setTotal (getNumberOfArtifacts lock.images),
                  Event.updateTitle "Pulling Images"] }
      (fun i hi => hi)
  refine ⟨?_, getNumberOfArtifacts_eq_sum lock.images⟩
  rw [show (PullImages env lock imagesDir opts cache0)
      = pullLoop env (NewConfiguration opts) imagesDir lock.images
        { time := 0, cache := cache0,
          trace := [Event.setTotal (getNumberOfArtifacts lock.images),
                    Event.updateTitle "Pulling Images"] } from rfl, he,
    totalsOf_append, ht]
  simp [totalsOf, getNumberOfArtifacts_eq_sum]

/-- A concrete chart fixture. -/
def chartW : Chart :=
  { name := "mychart", version := "1.2.3",
    rootFiles := [("Chart.yaml", "apiVersion: v2")],
    declaredImages := [{ name := "app", image := "repo/app" }] }

/-- C7: For every chart, packing the chart root into a bundle produces an
archive whose internal path prefix is exactly `<chartName>-<chartVersion>`,
derived from the chart's own identity: every archive entry lives under that
prefix and the archive contents do not depend on the caller-supplied output
file. -/
theorem compress_prefix_from_chart_identity (chart : Chart) (outputFile : String) :
    (∀ e ∈ (compressChart chart outputFile).entries,
      ∃ p, e.1 = chart.name ++ "-" ++ chart.version ++ "/" ++ p
        ∧ (p, e.2) ∈ chart.rootFiles) ∧
    ∀ o1 o2 : String, compressChart chart o1 = compressChart chart o2 := by
  constructor
  · intro e he
    simp only [compressChart, TarContext, List.mem_map] at he
    obtain ⟨a, ha, hf⟩ := he
    refine ⟨a.1, ?_, ?_⟩
    · rw [← hf]
    · rw [← hf]
      simpa using ha
  · intro o1 o2
    rfl

/-- Closed witness for C7 at a concrete chart: the single root file lands
under the `mychart-1.2.3` prefix. -/
theorem compress_prefix_from_chart_identity_witness :
    ("mychart-1.2.3/Chart.yaml", "apiVersion: v2")
        ∈ (compressChart chartW "out.tgz").entries ∧
    ∃ p, ("mychart-1.2.3/Chart.yaml", "apiVersion: v2").1
        = chartW.name ++ "-" ++ chartW.version ++ "/" ++ p
      ∧ (p, ("mychart-1.2.3/Chart.yaml", "apiVersion: v2").2) ∈ chartW.rootFiles := by
  constructor
  · decide
  · exact (compress_prefix_from_chart_identity chartW "out.tgz").1
      ("mychart-1.2.3/Chart.yaml", "apiVersion: v2") (by decide)

/-- What the loop of `ReadRemoteImageManifest` guarantees about each recorded
(platform, digest) pair, relative to the already-accumulated map. -/
lemma readManifests_mem (arch : String) (dd : DigestData) :
    ∀ (ms : List Descriptor) (m0 : DigestMap) (errs : List String),
      (readManifests ms m0 errs).1 arch = some dd →
      m0 arch = some dd ∨
      ∃ m ∈ ms,
        annotationValue m.annotations "vnd.docker.reference.type"
          ≠ "attestation-manifest" ∧
        (m.mediaType = OCIManifestSchema1 ∨ m.mediaType = DockerManifestSchema2) ∧
        ∃ p, m.platform = some p ∧ arch = p.os ++ "/" ++ p.architecture ∧
          dd = { arch := arch, digest := m.digest } := by
  intro ms
  induction ms with
  | nil => intro m0 errs h; exact Or.inl h
  | cons d rest ih =>
    intro m0 errs h
    unfold readManifests at h
    by_cases hat : annotationValue d.annotations "vnd.docker.reference.type"
        = "attestation-manifest"
    · simp only [hat, if_true] at h
      rcases ih _ _ h with h0 | ⟨m, hm, hgood⟩
      · exact Or.inl h0
      · exact Or.inr ⟨m, by simp [hm], hgood⟩
    · simp only [hat, if_false] at h
      by_cases hmt : d.mediaType = OCIManifestSchema1 ∨ d.mediaType = DockerManifestSchema2
      · simp only [hmt, if_true] at h
        cases hp : d.platform with
        | none =>
          rw [hp] at h
          rcases ih _ _ h with h0 | ⟨m, hm, hgood⟩
          · exact Or.inl h0
          · exact Or.inr ⟨m, by simp [hm], hgood⟩
        | some p =>
          rw [hp] at h
          rcases ih _ _ h with h0 | ⟨m, hm, hgood⟩
          · by_cases harch : arch = p.os ++ "/" ++ p.architecture
            · rw [setDigest, if_pos harch] at h0
              injection h0 with h0
              subst harch
              exact Or.inr ⟨d, by simp, hat, hmt, p, hp, rfl, h0.symm⟩
            · rw [setDigest, if_neg harch] at h0
              exact Or.inl h0
          · exact Or.inr ⟨m, by simp [hm], hgood⟩
      · simp only [hmt, if_false] at h
        rcases ih _ _ h with h0 | ⟨m, hm, hgood⟩
        · exact Or.inl h0
        · exact Or.inr ⟨m, by simp [hm], hgood⟩

/-- C8: When resolving a reference's manifest-list contents, every entry
annotated as an attestation manifest (by the fixed annotation string
`vnd.docker.reference.type: attestation-manifest`), and every non-image
manifest entry, is skipped rather than included in the resulting
(platform, digest) set: anything the reader records comes from an entry that
is not attestation-annotated, has an image-manifest media type, and carries a
platform. -/
theorem manifest_entries_skip_attestations (idx : IndexManifest)
    (arch : String) (dd : DigestData)
    (h : (ReadRemoteImageManifest idx).1 arch = some dd) :
    ∃ m ∈ idx.manifests,
      annotationValue m.annotations "vnd.docker.reference.type"
        ≠ "attestation-manifest" ∧
      (m.mediaType = OCIManifestSchema1 ∨ m.mediaType = DockerManifestSchema2) ∧
      ∃ p, m.platform = some p ∧ arch = p.os ++ "/" ++ p.architecture ∧
        dd = { arch := arch, digest := m.digest } := by
  rcases readManifests_mem arch dd idx.manifests (fun _ => none) [] h with h0 | hm
  · exact absurd h0 (by simp)
  · exact hm

/-- A concrete index manifest: one attestation entry, one unknown-media
entry, one real image entry. -/
def idxW : IndexManifest :=
  { manifests :=
      [{ mediaType := OCIManifestSchema1,
         annotations := [("vnd.docker.reference.type", "attestation-manifest")],
         platform := some { os := "unknown", architecture := "unknown" },
         digest := "sha256:att" },
       { mediaType := "application/vnd.example.signature",
         annotations := [],
         platform := some { os := "linux", architecture := "amd64" },
         digest := "sha256:sig" },
       { mediaType := OCIManifestSchema1,
         annotations := [],
         platform := some { os := "linux", architecture := "amd64" },
         digest := "sha256:img" }] }

/-- Closed witness for C8: the concrete index records only the real image
entry, and the theorem traces it back to a non-attestation image manifest. -/
theorem manifest_entries_skip_attestations_witness :
    (ReadRemoteImageManifest idxW).1 "linux/amd64"
        = some { arch := "linux/amd64", digest := "sha256:img" } ∧
    ∃ m ∈ idxW.manifests,
      annotationValue m.annotations "vnd.docker.reference.type"
        ≠ "attestation-manifest" ∧
      (m.mediaType = OCIManifestSchema1 ∨ m.mediaType = DockerManifestSchema2) ∧
      ∃ p, m.platform = some p ∧ "linux/amd64" = p.os ++ "/" ++ p.architecture ∧
        ({ arch := "linux/amd64", digest := "sha256:img" } : DigestData)
          = { arch := "linux/amd64", digest := m.digest } := by
  constructor
  · rfl
  · exact manifest_entries_skip_attestations idxW "linux/amd64"
      { arch := "linux/amd64", digest := "sha256:img" } (by rfl)

/-- The platform restriction built into spec-modelled lock generation. -/
lemma lockImagesFor_platforms (resolve : String → List DigestInfo)
    (chartName : String) (platforms : List String) :
    ∀ (dis : List DeclaredImage) (is : List ChartImage),
      lockImagesFor resolve chartName platforms dis = Except.ok is →
      ∀ img ∈ is, ∀ d ∈ img.digests, platforms ≠ [] → d.arch ∈ platforms := by
  intro dis
  induction dis with
  | nil =>
    intro is h
    simp only [lockImagesFor] at h
    injection h with h
    subst h
    intro img him
    simp at him
  | cons di rest ih =>
    intro is h
    unfold lockImagesFor at h
    by_cases hempty : ((resolve di.image).filter
        (fun d => platforms.isEmpty || platforms.contains d.arch)).isEmpty
    · rw [if_pos hempty] at h
      exact absurd h (by simp)
    · rw [if_neg hempty] at h
      cases hrest : lockImagesFor resolve chartName platforms rest with
      | error e => rw [hrest] at h; exact absurd h (by simp)
      | ok is2 =>
        rw [hrest] at h
        injection h with h
        subst h
        intro img him d hd hplat
        rcases List.mem_cons.mp him with him | him
        · subst him
          simp only [List.mem_filter] at hd
          have := hd.2
          rcases Bool.or_eq_true_iff.mp this with hemp | hcon
          · exact absurd (List.isEmpty_iff.mp hemp) hplat
          · simpa using hcon
        · exact ih is2 hrest img him d hd hplat

/-- C10: The wrap operation generates a new Images.lock iff no lock file
exists at the chart's lock path.  When the file exists it is verified against
the chart and its contents are left unchanged (never regenerated or
overwritten); when it is absent a lock is generated from the chart's declared
images restricted to the requested platforms, and written to that path before
the images are pulled. -/
lemma wrapChart_some (env : WrapEnv) (chart : Chart) (outputFile : String)
    (platforms : List String) (lock : ImagesLock) :
    wrapChart env chart outputFile platforms (some lock)
      = match env.verify chart lock with
        | some e => ((some lock, [WrapAction.verifyStep]),
            some ("Failed to verify lock: " ++ e))
        | none => wrapFinish env chart outputFile (some lock)
            [WrapAction.verifyStep] := rfl

lemma wrapChart_none (env : WrapEnv) (chart : Chart) (outputFile : String)
    (platforms : List String) :
    wrapChart env chart outputFile platforms none
      = match createImagesLock env.resolve chart platforms with
        | Except.error e => ((none, [WrapAction.generateStep platforms]),
            some ("Failed to generate lock: " ++ e))
        | Except.ok lock =>
          wrapFinish env chart outputFile (some lock)
            [WrapAction.generateStep platforms, WrapAction.writeLock lock] := rfl

theorem wrap_generates_lock_iff_absent (env : WrapEnv) (chart : Chart)
    (outputFile : String) (platforms : List String)
    (lockContents : Option ImagesLock) :
    ((∃ ps, WrapAction.generateStep ps
        ∈ (wrapChart env chart outputFile platforms lockContents).1.2)
      ↔ lockContents = none) ∧
    (∀ lock, lockContents = some lock →
      (wrapChart env chart outputFile platforms lockContents).1.1 = some lock ∧
      WrapAction.verifyStep
        ∈ (wrapChart env chart outputFile platforms lockContents).1.2 ∧
      ∀ l, WrapAction.writeLock l
        ∉ (wrapChart env chart outputFile platforms lockContents).1.2) ∧
    (lockContents = none →
      ∀ l, createImagesLock env.resolve chart platforms = Except.ok l →
        (wrapChart env chart outputFile platforms lockContents).1.1 = some l ∧
        (∃ rest, (wrapChart env chart outputFile platforms lockContents).1.2
          = WrapAction.generateStep platforms :: WrapAction.writeLock l
              :: WrapAction.pullStep :: rest) ∧
        ∀ img ∈ l.images, ∀ d ∈ img.digests, platforms ≠ [] → d.arch ∈ platforms) := by
  refine ⟨?_, ?_, ?_⟩
  · constructor
    · rintro ⟨ps, hps⟩
      cases lockContents with
      | none => rfl
      | some lock =>
        exfalso
        rw [wrapChart_some] at hps
        cases hv : env.verify chart lock with
        | some e => rw [hv] at hps; simp at hps
        | none =>
          rw [hv] at hps
          cases hpe : env.pullErr <;> cases hce : env.compressErr <;>
            simp [wrapFinish, hpe, hce] at hps
    · rintro rfl
      rw [wrapChart_none]
      cases hc : createImagesLock env.resolve chart platforms with
      | error e => exact ⟨platforms, by simp⟩
      | ok lock =>
        refine ⟨platforms, ?_⟩
        cases hpe : env.pullErr <;> cases hce : env.compressErr <;>
          simp [wrapFinish, hpe, hce]
  · rintro lock rfl
    rw [wrapChart_some]
    cases hv : env.verify chart lock with
    | some e => simp
    | none =>
      cases hpe : env.pullErr <;> cases hce : env.compressErr <;>
        simp [wrapFinish, hpe, hce]
  · rintro rfl l hl
    have hplat : ∀ img ∈ l.images, ∀ d ∈ img.digests,
        platforms ≠ [] → d.arch ∈ platforms := by
      unfold createImagesLock at hl
      cases hlf : lockImagesFor env.resolve chart.name platforms chart.declaredImages with
      | error e => rw [hlf] at hl; exact absurd hl (by simp)
      | ok is =>
        rw [hlf] at hl
        injection hl with hl
        intro img him
        have hli : img ∈ is := by rw [← hl] at him; exact him
        exact lockImagesFor_platforms env.resolve chart.name platforms
          chart.declaredImages is hlf img hli
    rw [wrapChart_none, hl]
    cases hpe : env.pullErr <;> cases hce : env.compressErr <;>
      simp [wrapFinish, hpe, hce] <;> exact hplat

/-- A wrap environment whose collaborators all succeed. -/
def wrapEnvW : WrapEnv :=
  { resolve := fun _ => [{ arch := "linux/amd64", digest := "sha256:aaa" },
                         { arch := "linux/arm64", digest := "sha256:bbb" }],
    verify := fun _ _ => none,
    pullErr := none,
    compressErr := none }

/-- The lock the fixture wrap generates for `chartW` on `linux/amd64`. -/
def lockGen : ImagesLock :=
  { images := [{ chart := "mychart", name := "app", image := "repo/app",
                 digests := [{ arch := "linux/amd64", digest := "sha256:aaa" }] }] }

/-- Closed witness for C10: with no pre-existing lock, a concrete wrap
generates the lock restricted to the requested platform, writes it, and only
then pulls; with a pre-existing lock, it verifies and leaves it unchanged. -/
theorem wrap_generates_lock_iff_absent_witness :
    ((wrapChart wrapEnvW chartW "" ["linux/amd64"] none).1.1 = some lockGen ∧
      (∃ rest, (wrapChart wrapEnvW chartW "" ["linux/amd64"] none).1.2
        = WrapAction.generateStep ["linux/amd64"] :: WrapAction.writeLock lockGen
            :: WrapAction.pullStep :: rest) ∧
      ∀ img ∈ lockGen.images, ∀ d ∈ img.digests,
        (["linux/amd64"] : List String) ≠ [] → d.arch ∈ ["linux/amd64"]) ∧
    ((wrapChart wrapEnvW chartW "" ["linux/amd64"] (some lockW)).1.1 = some lockW ∧
      WrapAction.verifyStep ∈ (wrapChart wrapEnvW chartW "" ["linux/amd64"] (some lockW)).1.2 ∧
      ∀ l, WrapAction.writeLock l
        ∉ (wrapChart wrapEnvW chartW "" ["linux/amd64"] (some lockW)).1.2) := by
  constructor
  · exact (wrap_generates_lock_iff_absent wrapEnvW chartW "" ["linux/amd64"] none).2.2
      rfl lockGen (by rfl)
  · exact (wrap_generates_lock_iff_absent wrapEnvW chartW "" ["linux/amd64"]
      (some lockW)).2.1 lockW rfl

/-! Helper lemmas: the retry loop of one transfer unit. -/

lemma pullAttempt_error (env : Env) (imagesDir image : String) (d : DigestInfo)
    (s : TransferState) (e : String)
    (h : env.fetch s.time (pullRef image d) = Except.error e) :
    pullAttempt env imagesDir image d s
      = ({ time := s.time + 1, cache := s.cache,
           trace := s.trace ++ [Event.fetchCall (pullRef image d)] }, some e) := by
  unfold pullAttempt
  rw [h]

lemma pullAttempt_ok (env : Env) (imagesDir image : String) (d : DigestInfo)
    (s : TransferState) (st : StoredImage)
    (h : env.fetch s.time (pullRef image d) = Except.ok st) :
    pullAttempt env imagesDir image d s
      = ({ time := s.time + 1,
           cache := updateCache s.cache (getImageTarFile imagesDir d) st,
           trace := s.trace ++ [Event.fetchCall (pullRef image d)] }, none) := by
  unfold pullAttempt
  rw [h]

lemma pullCallback_zero (env : Env) (cfg : Configuration)
    (imagesDir image : String) (d : DigestInfo) (prev : Option String)
    (s : TransferState) :
    pullCallback env cfg imagesDir image d 0 prev s
      = pullAttempt env imagesDir image d s := by
  simp [pullCallback]

lemma pullCallback_succ_done (env : Env) (cfg : Configuration)
    (imagesDir image : String) (d : DigestInfo) (t : Nat) (prev : Option String)
    (s : TransferState) (hd : env.done s.time = true) :
    pullCallback env cfg imagesDir image d (t + 1) prev s = (s, prev) := by
  simp [pullCallback, hd]

lemma pullCallback_succ_live (env : Env) (cfg : Configuration)
    (imagesDir image : String) (d : DigestInfo) (t : Nat) (prev : Option String)
    (s : TransferState) (hd : env.done s.time = false) :
    pullCallback env cfg imagesDir image d (t + 1) prev s
      = pullAttempt env imagesDir image d
          (emit [Event.retryWarn (t + 1) cfg.maxRetries] s) := by
  simp [pullCallback, hd]

lemma retryLoop_succ
    (cb : Nat → Option String → TransferState → TransferState × Option String)
    (fuel t : Nat) (prev : Option String) (s : TransferState) :
    retryLoop cb (fuel + 1) t prev s
      = match (cb t prev s).2 with
        | none => ((cb t prev s).1, none)
        | some e => retryLoop cb fuel (t + 1) (some e) (cb t prev s).1 := rfl

/-- Once the cancellation signal is set, the remaining retry attempts of a
pull unit return the previous error untouched: the unit aborts surfacing the
last error without any further fetch. -/
lemma retryLoop_spin (env : Env) (cfg : Configuration)
    (imagesDir image : String) (d : DigestInfo) (s : TransferState)
    (hd : env.done s.time = true) :
    ∀ (fuel t : Nat) (e : String),
      retryLoop (pullCallback env cfg imagesDir image d) fuel (t + 1) (some e) s
        = (s, some e) := by
  intro fuel
  induction fuel with
  | zero => intro t e; rfl
  | succ n ih =>
    intro t e
    rw [retryLoop_succ, pullCallback_succ_done env cfg imagesDir image d t (some e) s hd]
    exact ih (t + 1) e

lemma pullUnit_live (env : Env) (cfg : Configuration) (imagesDir : String)
    (img : ChartImage) (d : DigestInfo) (s : TransferState)
    (hd : env.done s.time = false) :
    pullUnit env cfg imagesDir img d s
      = ((ExecuteWithRetry cfg.maxRetries
            (pullCallback env cfg imagesDir img.image d)
            (emit [Event.add 1, Event.updateTitle (pullTitle img d)] s)).1,
         Option.map (pullFailMsg img.name)
           (ExecuteWithRetry cfg.maxRetries
             (pullCallback env cfg imagesDir img.image d)
             (emit [Event.add 1, Event.updateTitle (pullTitle img d)] s)).2) := by
  unfold pullUnit
  simp [hd]

lemma pullUnit_cancelled (env : Env) (cfg : Configuration) (imagesDir : String)
    (img : ChartImage) (d : DigestInfo) (s : TransferState)
    (hd : env.done s.time = true) :
    pullUnit env cfg imagesDir img d s = (s, some cancelledMsg) := by
  unfold pullUnit
  simp [hd]

lemma pushUnit_cancelled (env : Env) (cfg : Configuration) (imagesDir : String)
    (img : ChartImage) (s : TransferState)
    (hd : env.done s.time = true) :
    pushUnit env cfg imagesDir img s = (s, some cancelledMsg) := by
  unfold pushUnit
  simp [hd]

/-- A pull unit whose first attempt fails while cancellation arrives during
that attempt: exactly one fetch happens, no retry is reported, and the unit
ends with the last error wrapped with the image name. -/
lemma pullUnit_cancel_during (env : Env) (cfg : Configuration)
    (imagesDir : String) (img : ChartImage) (d : DigestInfo)
    (s : TransferState) (e : String)
    (hmr : 1 ≤ cfg.maxRetries)
    (hd0 : env.done s.time = false)
    (hfe : env.fetch s.time (pullRef img.image d) = Except.error e)
    (hd1 : env.done (s.time + 1) = true) :
    pullUnit env cfg imagesDir img d s
      = ({ time := s.time + 1, cache := s.cache,
           trace := s.trace ++ [Event.add 1, Event.updateTitle (pullTitle img d),
             Event.fetchCall (pullRef img.image d)] },
         some (pullFailMsg img.name e)) := by
  obtain ⟨fuel, hfuel⟩ : ∃ fuel, cfg.maxRetries = fuel + 1 :=
    ⟨cfg.maxRetries - 1, by omega⟩
  rw [pullUnit_live env cfg imagesDir img d s hd0]
  rw [ExecuteWithRetry, hfuel, retryLoop_succ, pullCallback_zero,
    pullAttempt_error env imagesDir img.image d
      (emit [Event.add 1, Event.updateTitle (pullTitle img d)] s) e
      (by simpa using hfe)]
  cases fuel with
  | zero => simp [retryLoop]
  | succ n =>
    simp only []
    have hspin := retryLoop_spin env cfg imagesDir img.image d
      (⟨(emit [Event.add 1, Event.updateTitle (pullTitle img d)] s).time + 1,
        (emit [Event.add 1, Event.updateTitle (pullTitle img d)] s).cache,
        (emit [Event.add 1, Event.updateTitle (pullTitle img d)] s).trace
          ++ [Event.fetchCall (pullRef img.image d)]⟩ : TransferState)
      (by simpa using hd1) (n + 1) 0 e
    rw [hspin]
    simp

/-- A pull unit all of whose attempts fail with the same error and that is
never cancelled: it makes exactly `maxRetries` fetch attempts, reports each
retry index through the progress channel right before the corresponding
attempt, and ends with that error wrapped with the image name. -/
lemma retryLoop_allFail (env : Env) (cfg : Configuration)
    (imagesDir image : String) (d : DigestInfo) (eB : String)
    (hdone : ∀ t, env.done t = false)
    (hfail : ∀ t, env.fetch t (pullRef image d) = Except.error eB) :
    ∀ (fuel t : Nat) (s : TransferState),
      retryLoop (pullCallback env cfg imagesDir image d) fuel (t + 1) (some eB) s
        = ({ time := s.time + fuel, cache := s.cache,
             trace := s.trace
               ++ retryTail (pullRef image d) cfg.maxRetries (t + 1) fuel },
           some eB) := by
  intro fuel
  induction fuel with
  | zero =>
    intro t s
    cases s
    simp [retryTail, retryLoop]
  | succ n ih =>
    intro t s
    rw [retryLoop_succ,
      pullCallback_succ_live env cfg imagesDir image d t (some eB) s (hdone s.time),
      pullAttempt_error env imagesDir image d
        (emit [Event.retryWarn (t + 1) cfg.maxRetries] s) eB
        (by simpa using hfail s.time)]
    simp only []
    rw [ih (t + 1)]
    simp [retryTail, Nat.add_assoc, Nat.add_comm 1 n]

lemma pullUnit_allFail (env : Env) (cfg : Configuration) (imagesDir : String)
    (img : ChartImage) (d : DigestInfo) (s : TransferState) (eB : String)
    (hmr : 1 ≤ cfg.maxRetries)
    (hdone : ∀ t, env.done t = false)
    (hfail : ∀ t, env.fetch t (pullRef img.image d) = Except.error eB) :
    pullUnit env cfg imagesDir img d s
      = ({ time := s.time + cfg.maxRetries, cache := s.cache,
           trace := s.trace ++ [Event.add 1, Event.updateTitle (pullTitle img d)]
             ++ failTrace (pullRef img.image d) cfg.maxRetries },
         some (pullFailMsg img.name eB)) := by
  obtain ⟨fuel, hfuel⟩ : ∃ fuel, cfg.maxRetries = fuel + 1 :=
    ⟨cfg.maxRetries - 1, by omega⟩
  rw [pullUnit_live env cfg imagesDir img d s (hdone s.time)]
  rw [ExecuteWithRetry, hfuel, retryLoop_succ, pullCallback_zero,
    pullAttempt_error env imagesDir img.image d
      (emit [Event.add 1, Event.updateTitle (pullTitle img d)] s) eB
      (by simpa using hfail s.time)]
  simp only []
  rw [retryLoop_allFail env cfg imagesDir img.image d eB hdone hfail fuel 0]
  rw [hfuel]
  simp [failTrace, Nat.add_assoc, Nat.add_comm 1 fuel]

/-- A single digest entry fixture. -/
def dW : DigestInfo := { arch := "linux/amd64", digest := "sha256:aaa" }

/-- A single chart image fixture. -/
def imgW : ChartImage :=
  { chart := "c", name := "app", image := "repo/app", digests := [dW] }

/-- An initial transfer state fixture. -/
def stW : TransferState := { time := 0, cache := cacheNil, trace := [] }

/-- A cancellation signal that arrives after the first registry call. -/
def envCancel : Env :=
  { done := fun t => decide (1 ≤ t),
    fetch := fun _ _ => Except.error "boom",
    push := fun _ _ _ => none }

/-- C5: For every pull or push call, the cancellation signal is checked
before starting each transfer unit; once cancellation is observed at a unit
boundary the call terminates returning the cancellation error, with the state
(and hence the trace) unchanged: no further unit is attempted and no
never-attempted unit is reported as a transfer failure. -/
theorem cancellation_stops_before_next_unit :
    (∀ (env : Env) (cfg : Configuration) (imagesDir : String)
        (imgs : List ChartImage) (s : TransferState),
      env.done s.time = true →
      (∃ img ∈ imgs, img.digests ≠ []) →
      pullLoop env cfg imagesDir imgs s = (s, some cancelledMsg)) ∧
    (∀ (env : Env) (cfg : Configuration) (imagesDir : String)
        (imgs : List ChartImage) (s : TransferState),
      env.done s.time = true → imgs ≠ [] →
      pushLoop env cfg imagesDir imgs s = (s, some cancelledMsg)) := by
  constructor
  · intro env cfg imagesDir imgs
    induction imgs with
    | nil =>
      intro s _ hex
      simp at hex
    | cons img rest ih =>
      intro s hd hex
      cases hdig : img.digests with
      | nil =>
        have hrest : ∃ i ∈ rest, i.digests ≠ [] := by
          rcases hex with ⟨i, hi, hne⟩
          rcases List.mem_cons.mp hi with rfl | hi
          · exact absurd hdig hne
          · exact ⟨i, hi, hne⟩
        simp only [pullLoop, hdig, pullDigests]
        exact ih s hd hrest
      | cons d ds =>
        simp only [pullLoop, hdig, pullDigests,
          pullUnit_cancelled env cfg imagesDir img d s hd]
  · intro env cfg imagesDir imgs
    induction imgs with
    | nil => intro s _ hne; exact absurd rfl hne
    | cons img rest _ =>
      intro s hd _
      simp only [pushLoop, pushUnit_cancelled env cfg imagesDir img s hd]

/-- Closed witness for C5: with the signal already set, a concrete pull loop
and push loop both return the cancellation error with the state unchanged. -/
theorem cancellation_stops_before_next_unit_witness :
    (envDone.done stW.time = true ∧ (∃ img ∈ lockW.images, img.digests ≠ [])
      ∧ lockW.images ≠ []) ∧
    pullLoop envDone (NewConfiguration []) "images" lockW.images stW
      = (stW, some cancelledMsg) ∧
    pushLoop envDone (NewConfiguration []) "images" lockW.images stW
      = (stW, some cancelledMsg) := by
  refine ⟨⟨by decide, by decide, by decide⟩, ?_, ?_⟩
  · exact cancellation_stops_before_next_unit.1 envDone (NewConfiguration [])
      "images" lockW.images stW (by decide) (by decide)
  · exact cancellation_stops_before_next_unit.2 envDone (NewConfiguration [])
      "images" lockW.images stW (by decide) (by decide)

lemma fetchRefs_retryTail_mem (ref : String) (mR : Nat) :
    ∀ (fuel start : Nat) (r : String),
      r ∈ fetchRefs (retryTail ref mR start fuel) → r = ref := by
  intro fuel
  induction fuel with
  | zero => intro start r hr; simp [retryTail, fetchRefs] at hr
  | succ n ih =>
    intro start r hr
    simp only [retryTail] at hr
    rw [show (Event.retryWarn start mR :: Event.fetchCall ref
        :: retryTail ref mR (start + 1) n)
      = [Event.retryWarn start mR, Event.fetchCall ref]
        ++ retryTail ref mR (start + 1) n from rfl] at hr
    rw [fetchRefs_append] at hr
    rcases List.mem_append.mp hr with hr | hr
    · simpa [fetchRefs] using hr
    · exact ih (start + 1) r hr

lemma fetchRefs_failTrace_mem (ref : String) (mR : Nat) (r : String)
    (hr : r ∈ fetchRefs (failTrace ref mR)) : r = ref := by
  simp only [failTrace] at hr
  rw [show (Event.fetchCall ref :: retryTail ref mR 1 (mR - 1))
      = [Event.fetchCall ref] ++ retryTail ref mR 1 (mR - 1) from rfl,
    fetchRefs_append] at hr
  rcases List.mem_append.mp hr with hr | hr
  · simpa [fetchRefs] using hr
  · exact fetchRefs_retryTail_mem ref mR (mR - 1) 1 r hr

/-- C6 counterexample: the claim says the fatal pull error carries structured
context identifying the image, the platform/digest, and the cause; in the
code the error is `fmt.Errorf("failed to pull image %q: %w", name, err)`,
which carries only the image name and the cause.  At a concrete lock whose
single digest entry is `sha256:aaa` for `linux/amd64`, with every attempt
failing with `boom`, the returned error string contains neither the digest
nor the platform. -/
theorem pull_error_lacks_digest_context_cex :
    (PullImages envBoom lockW "images" [] cacheNil).2
      = some "failed to pull image \"app\": boom" ∧
    strOccurs "sha256:aaa" "failed to pull image \"app\": boom" = false ∧
    strOccurs "linux/amd64" "failed to pull image \"app\": boom" = false :=
  ⟨by decide, by decide, by decide⟩

/-! Helper lemmas: cache writes of a successful pull (claim C9). -/

lemma applyWrites_lastVal (ws : List (String × StoredImage)) :
    ∀ (c : Cache) (k : String),
      applyWrites c ws k
        = match lastVal ws k with
          | some v => some v
          | none => c k := by
  induction ws with
  | nil => intro c k; simp [applyWrites, lastVal]
  | cons kv ws ih =>
    intro c k
    rw [show applyWrites c (kv :: ws) = applyWrites (updateCache c kv.1 kv.2) ws
      from rfl]
    rw [ih (updateCache c kv.1 kv.2) k]
    cases hlast : lastVal ws k with
    | some v => simp [lastVal, hlast]
    | none =>
      simp only [lastVal, hlast, updateCache]
      by_cases hk : k = kv.1 <;> simp [hk]

/-- Re-applying the same write list leaves the cache unchanged: overwrites
with identical content. -/
lemma applyWrites_idem (c : Cache) (ws : List (String × StoredImage)) :
    applyWrites (applyWrites c ws) ws = applyWrites c ws := by
  funext k
  rw [applyWrites_lastVal ws (applyWrites c ws) k, applyWrites_lastVal ws c k]
  cases hlast : lastVal ws k with
  | some v => simp
  | none => simp [applyWrites_lastVal ws c k, hlast]

/-- A pull unit whose fetch succeeds (deterministic registry, no
cancellation): one fetch, the archive is written to the digest-named file. -/
lemma pullUnit_ok (env : Env) (cfg : Configuration) (imagesDir : String)
    (img : ChartImage) (d : DigestInfo) (s : TransferState) (st : StoredImage)
    (hmr : 1 ≤ cfg.maxRetries)
    (hdone : ∀ t, env.done t = false)
    (hdet : ∀ t r, env.fetch t r = env.fetch 0 r)
    (hok : env.fetch 0 (pullRef img.image d) = Except.ok st) :
    pullUnit env cfg imagesDir img d s
      = ({ time := s.time + 1,
           cache := updateCache s.cache (getImageTarFile imagesDir d) st,
           trace := s.trace ++ [Event.add 1, Event.updateTitle (pullTitle img d),
             Event.fetchCall (pullRef img.image d)] }, none) := by
  obtain ⟨fuel, hfuel⟩ : ∃ fuel, cfg.maxRetries = fuel + 1 :=
    ⟨cfg.maxRetries - 1, by omega⟩
  rw [pullUnit_live env cfg imagesDir img d s (hdone s.time)]
  rw [ExecuteWithRetry, hfuel, retryLoop_succ, pullCallback_zero,
    pullAttempt_ok env imagesDir img.image d
      (emit [Event.add 1, Event.updateTitle (pullTitle img d)] s) st
      (by rw [emit_time, hdet]; exact hok)]
  simp

lemma pullDigests_ok (env : Env) (cfg : Configuration) (imagesDir : String)
    (img : ChartImage)
    (hmr : 1 ≤ cfg.maxRetries)
    (hdone : ∀ t, env.done t = false)
    (hdet : ∀ t r, env.fetch t r = env.fetch 0 r) :
    ∀ (ds : List DigestInfo) (s : TransferState),
      (∀ d ∈ ds, ∃ st, env.fetch 0 (pullRef img.image d) = Except.ok st) →
      ∃ tr, pullDigests env cfg imagesDir img ds s
        = ({ time := s.time + ds.length,
             cache := applyWrites s.cache (writesD env imagesDir img.image ds),
             trace := s.trace ++ tr }, none) := by
  intro ds
  induction ds with
  | nil =>
    intro s _
    refine ⟨[], ?_⟩
    cases s
    simp [pullDigests, writesD, applyWrites]
  | cons d ds ih =>
    intro s hall
    obtain ⟨st, hst⟩ := hall d (by simp)
    have hunit := pullUnit_ok env cfg imagesDir img d s st hmr hdone hdet hst
    obtain ⟨tr2, htr2⟩ := ih
      (⟨s.time + 1, updateCache s.cache (getImageTarFile imagesDir d) st,
        s.trace ++ [Event.add 1, Event.updateTitle (pullTitle img d),
          Event.fetchCall (pullRef img.image d)]⟩ : TransferState)
      (fun d2 hd2 => hall d2 (by simp [hd2]))
    refine ⟨[Event.add 1, Event.updateTitle (pullTitle img d),
      Event.fetchCall (pullRef img.image d)] ++ tr2, ?_⟩
    rw [show pullDigests env cfg imagesDir img (d :: ds) s
        = (match (pullUnit env cfg imagesDir img d s).2 with
           | none => pullDigests env cfg imagesDir img ds
               (pullUnit env cfg imagesDir img d s).1
           | some e => ((pullUnit env cfg imagesDir img d s).1, some e))
      from rfl]
    rw [hunit]
    simp only []
    rw [htr2]
    simp only [writesD, hst]
    rw [show applyWrites s.cache
        ((getImageTarFile imagesDir d, st) :: writesD env imagesDir img.image ds)
      = applyWrites (updateCache s.cache (getImageTarFile imagesDir d) st)
          (writesD env imagesDir img.image ds) from rfl]
    simp [Nat.add_assoc, Nat.add_comm 1 ds.length]

lemma pullLoop_ok (env : Env) (cfg : Configuration) (imagesDir : String)
    (hmr : 1 ≤ cfg.maxRetries)
    (hdone : ∀ t, env.done t = false)
    (hdet : ∀ t r, env.fetch t r = env.fetch 0 r) :
    ∀ (imgs : List ChartImage) (s : TransferState),
      (∀ img ∈ imgs, ∀ d ∈ img.digests,
        ∃ st, env.fetch 0 (pullRef img.image d) = Except.ok st) →
      ∃ tr, pullLoop env cfg imagesDir imgs s
        = ({ time := s.time + getNumberOfArtifacts imgs,
             cache := applyWrites s.cache (writesL env imagesDir imgs),
             trace := s.trace ++ tr }, none) := by
  intro imgs
  induction imgs with
  | nil =>
    intro s _
    refine ⟨[], ?_⟩
    cases s
    simp [pullLoop, writesL, applyWrites, getNumberOfArtifacts]
  | cons img rest ih =>
    intro s hall
    obtain ⟨tr1, htr1⟩ := pullDigests_ok env cfg imagesDir img hmr hdone hdet
      img.digests s (fun d hd => hall img (by simp) d hd)
    obtain ⟨tr2, htr2⟩ := ih
      (⟨s.time + img.digests.length,
        applyWrites s.cache (writesD env imagesDir img.image img.digests),
        s.trace ++ tr1⟩ : TransferState)
      (fun i hi d hd => hall i (by simp [hi]) d hd)
    refine ⟨tr1 ++ tr2, ?_⟩
    rw [show pullLoop env cfg imagesDir (img :: rest) s
        = (match (pullDigests env cfg imagesDir img img.digests s).2 with
           | none => pullLoop env cfg imagesDir rest
               (pullDigests env cfg imagesDir img img.digests s).1
           | some e => ((pullDigests env cfg imagesDir img img.digests s).1, some e))
      from rfl]
    rw [htr1]
    simp only []
    rw [htr2]
    have harts : getNumberOfArtifacts (img :: rest)
        = img.digests.length + getNumberOfArtifacts rest := by
      rw [getNumberOfArtifacts_eq_sum, getNumberOfArtifacts_eq_sum]
      simp
    have hwl : writesL env imagesDir (img :: rest)
        = writesD env imagesDir img.image img.digests
            ++ writesL env imagesDir rest := rfl
    have happ : ∀ (c : Cache) (w1 w2 : List (String × StoredImage)),
        applyWrites c (w1 ++ w2) = applyWrites (applyWrites c w1) w2 := by
      intro c w1
      induction w1 generalizing c with
      | nil => intro w2; rfl
      | cons kv w1 ih1 => intro w2; exact ih1 (updateCache c kv.1 kv.2) w2
    rw [harts, hwl, happ]
    simp [Nat.add_assoc]

/-- C9: For every lock, pulling it twice into the same cache directory
succeeds (given the registry returns the same bytes for each pinned digest,
cancellation never fires, and at least one attempt is allowed) and leaves the
cache contents identical to a single pull; each Digest Entry is stored in a
file named deterministically from the digest's encoded form, so the second
pull overwrites each file with identical content. -/
theorem pull_twice_idempotent (env : Env) (lock : ImagesLock)
    (imagesDir : String) (opts : List ConfigOption) (cache0 : Cache)
    (hmr : 1 ≤ (NewConfiguration opts).maxRetries)
    (hdone : ∀ t, env.done t = false)
    (hdet : ∀ t r, env.fetch t r = env.fetch 0 r)
    (hok : ∀ img ∈ lock.images, ∀ d ∈ img.digests,
      ∃ st, env.fetch 0 (pullRef img.image d) = Except.ok st) :
    (PullImages env lock imagesDir opts cache0).2 = none ∧
    (PullImages env lock imagesDir opts
      (PullImages env lock imagesDir opts cache0).1.cache).2 = none ∧
    (PullImages env lock imagesDir opts
        (PullImages env lock imagesDir opts cache0).1.cache).1.cache
      = (PullImages env lock imagesDir opts cache0).1.cache ∧
    ∀ dg : DigestInfo, getImageTarFile imagesDir dg
      = imagesDir ++ "/" ++ DigestInfo.encoded dg ++ ".tar" := by
  obtain ⟨tr1, h1⟩ := pullLoop_ok env (NewConfiguration opts) imagesDir hmr
    hdone hdet lock.images
    (⟨0, cache0, [Event.setTotal (getNumberOfArtifacts lock.images),
      Event.updateTitle "Pulling Images"]⟩ : TransferState) hok
  have hP1 : PullImages env lock imagesDir opts cache0
      = ({ time := 0 + getNumberOfArtifacts lock.images,
           cache := applyWrites cache0 (writesL env imagesDir lock.images),
           trace := [Event.setTotal (getNumberOfArtifacts lock.images),
             Event.updateTitle "Pulling Images"] ++ tr1 }, none) := h1
  obtain ⟨tr2, h2⟩ := pullLoop_ok env (NewConfiguration opts) imagesDir hmr
    hdone hdet lock.images
    (⟨0, applyWrites cache0 (writesL env imagesDir lock.images),
      [Event.setTotal (getNumberOfArtifacts lock.images),
       Event.updateTitle "Pulling Images"]⟩ : TransferState) hok
  have hP2 : PullImages env lock imagesDir opts
      (applyWrites cache0 (writesL env imagesDir lock.images))
      = ({ time := 0 + getNumberOfArtifacts lock.images,
           cache := applyWrites
             (applyWrites cache0 (writesL env imagesDir lock.images))
             (writesL env imagesDir lock.images),
           trace := [Event.setTotal (getNumberOfArtifacts lock.images),
             Event.updateTitle "Pulling Images"] ++ tr2 }, none) := h2
  refine ⟨by rw [hP1], ?_, ?_, fun dg => rfl⟩
  · rw [show (PullImages env lock imagesDir opts cache0).1.cache
      = applyWrites cache0 (writesL env imagesDir lock.images) from by rw [hP1]]
    rw [hP2]
  · rw [show (PullImages env lock imagesDir opts cache0).1.cache
      = applyWrites cache0 (writesL env imagesDir lock.images) from by rw [hP1]]
    rw [hP2]
    exact applyWrites_idem cache0 (writesL env imagesDir lock.images)

/-- Closed witness for C9 at a concrete lock and registry. -/
theorem pull_twice_idempotent_witness :
    (PullImages envOK lockW "images" [] cacheNil).2 = none ∧
    (PullImages envOK lockW "images" []
      (PullImages envOK lockW "images" [] cacheNil).1.cache).2 = none ∧
    (PullImages envOK lockW "images" []
        (PullImages envOK lockW "images" [] cacheNil).1.cache).1.cache
      = (PullImages envOK lockW "images" [] cacheNil).1.cache := by
  have h := pull_twice_idempotent envOK lockW "images" [] cacheNil (by decide)
    (fun t => rfl) (fun t r => rfl)
    (fun img _ d _ => ⟨_, rfl⟩)
  exact ⟨h.1, h.2.1, h.2.2.1⟩

/-! Helper lemmas: the push loop under a successful registry (claim C3). -/

lemma buildImageIndexAux_ok (cache : Cache) (imagesDir : String) :
    ∀ (ds : List DigestInfo) (es : List IndexEntry),
      buildImageIndexAux cache imagesDir ds = Except.ok es →
      es = ds.filterMap (loadEntry cache imagesDir) := by
  intro ds
  induction ds with
  | nil =>
    intro es h
    injection h with h
    simp [← h]
  | cons d ds ih =>
    intro es h
    unfold buildImageIndexAux at h
    cases hf : cache (getImageTarFile imagesDir d) with
    | none => rw [hf] at h; exact absurd h (by simp)
    | some st =>
      rw [hf] at h
      cases haux : buildImageIndexAux cache imagesDir ds with
      | error e => rw [haux] at h; exact absurd h (by simp)
      | ok es2 =>
        rw [haux] at h
        injection h with h
        rw [← h, ih es2 haux]
        simp [List.filterMap_cons, loadEntry, hf]

lemma buildImageIndex_ok (cache : Cache) (image : ChartImage)
    (imagesDir : String) (idx : ImageIndex)
    (h : buildImageIndex cache image imagesDir = Except.ok idx) :
    idx.mediaType = DockerManifestList ∧
    idx.entries = image.digests.filterMap (loadEntry cache imagesDir) := by
  unfold buildImageIndex at h
  cases haux : buildImageIndexAux cache imagesDir image.digests with
  | error e => rw [haux] at h; exact absurd h (by simp)
  | ok es =>
    rw [haux] at h
    injection h with h
    rw [← h]
    exact ⟨rfl, buildImageIndexAux_ok cache imagesDir image.digests es haux⟩

lemma pushCallback_zero (env : Env) (cfg : Configuration) (imagesDir : String)
    (imgData : ChartImage) (prev : Option String) (s : TransferState) :
    pushCallback env cfg imagesDir imgData 0 prev s
      = pushImage env imgData imagesDir s := by
  simp [pushCallback]

lemma pushImage_ok (env : Env) (imgData : ChartImage) (imagesDir : String)
    (s : TransferState) (idx : ImageIndex)
    (hidx : buildImageIndex s.cache imgData imagesDir = Except.ok idx)
    (hpush : env.push s.time imgData.image idx = none) :
    pushImage env imgData imagesDir s
      = ({ time := s.time + 1, cache := s.cache,
           trace := s.trace ++ [Event.writeIndex imgData.image idx] }, none) := by
  unfold pushImage
  rw [hidx]
  simp only []
  rw [hpush]

lemma pushUnit_live (env : Env) (cfg : Configuration) (imagesDir : String)
    (img : ChartImage) (s : TransferState)
    (hd : env.done s.time = false) :
    pushUnit env cfg imagesDir img s
      = ((ExecuteWithRetry cfg.maxRetries
            (pushCallback env cfg imagesDir img)
            (emit [Event.add 1, Event.updateTitle (pushTitle img)] s)).1,
         Option.map (pushFailMsg img.name)
           (ExecuteWithRetry cfg.maxRetries
             (pushCallback env cfg imagesDir img)
             (emit [Event.add 1, Event.updateTitle (pushTitle img)] s)).2) := by
  unfold pushUnit
  simp [hd]

lemma pushUnit_ok (env : Env) (cfg : Configuration) (imagesDir : String)
    (img : ChartImage) (s : TransferState) (idx : ImageIndex)
    (hmr : 1 ≤ cfg.maxRetries)
    (hdone : ∀ t, env.done t = false)
    (hpushAll : ∀ t r i, env.push t r i = none)
    (hidx : buildImageIndex s.cache img imagesDir = Except.ok idx) :
    pushUnit env cfg imagesDir img s
      = ({ time := s.time + 1, cache := s.cache,
           trace := s.trace ++ [Event.add 1, Event.updateTitle (pushTitle img),
             Event.writeIndex img.image idx] }, none) := by
  obtain ⟨fuel, hfuel⟩ : ∃ fuel, cfg.maxRetries = fuel + 1 :=
    ⟨cfg.maxRetries - 1, by omega⟩
  rw [pushUnit_live env cfg imagesDir img s (hdone s.time)]
  rw [ExecuteWithRetry, hfuel, retryLoop_succ, pushCallback_zero,
    pushImage_ok env img imagesDir
      (emit [Event.add 1, Event.updateTitle (pushTitle img)] s) idx
      (by simpa using hidx) (hpushAll _ _ _)]
  simp

lemma pushLoop_ok (env : Env) (cfg : Configuration) (imagesDir : String)
    (hmr : 1 ≤ cfg.maxRetries)
    (hdone : ∀ t, env.done t = false)
    (hpushAll : ∀ t r i, env.push t r i = none) :
    ∀ (imgs : List ChartImage) (s : TransferState),
      (∀ img ∈ imgs, ∃ idx, buildImageIndex s.cache img imagesDir = Except.ok idx) →
      (pushLoop env cfg imagesDir imgs s).2 = none ∧
      (pushLoop env cfg imagesDir imgs s).1.cache = s.cache ∧
      writeEvents (pushLoop env cfg imagesDir imgs s).1.trace
        = writeEvents s.trace ++ imgs.filterMap (fun img =>
            (buildImageIndex s.cache img imagesDir).toOption.map
              (fun idx => (img.image, idx))) ∧
      totalsOf (pushLoop env cfg imagesDir imgs s).1.trace = totalsOf s.trace := by
  intro imgs
  induction imgs with
  | nil =>
    intro s _
    simp [pushLoop]
  | cons img rest ih =>
    intro s hall
    obtain ⟨idx, hidx⟩ := hall img (by simp)
    have hunit := pushUnit_ok env cfg imagesDir img s idx hmr hdone hpushAll hidx
    obtain ⟨hA, hB, hC, hD⟩ := ih
      (⟨s.time + 1, s.cache, s.trace ++ [Event.add 1,
        Event.updateTitle (pushTitle img), Event.writeIndex img.image idx]⟩ :
        TransferState)
      (fun i hi => hall i (by simp [hi]))
    rw [show pushLoop env cfg imagesDir (img :: rest) s
        = (match (pushUnit env cfg imagesDir img s).2 with
           | none => pushLoop env cfg imagesDir rest
               (pushUnit env cfg imagesDir img s).1
           | some e => ((pushUnit env cfg imagesDir img s).1, some e))
      from rfl]
    rw [hunit]
    simp only []
    refine ⟨hA, hB, ?_, ?_⟩
    · rw [hC]
      simp [writeEvents, hidx, List.filterMap_cons, Except.toOption]
    · rw [hD]
      simp [totalsOf]

/-- C3: For every lock, the push operation's total progress unit count equals
the number of Chart Images (not Digest Entries); for each Chart Image all of
its per-platform cached archives are combined into a single multi-platform
manifest list (`DockerManifestList` media type), each entry's platform taken
from that image's own configuration (the config file of the loaded archive),
and that manifest list is pushed once to the image's destination reference:
under a successful registry the write events are exactly one per chart image,
at the image's own reference, with the index built by `buildImageIndex`. -/
theorem push_progress_total_and_manifest_list (env : Env) (lock : ImagesLock)
    (imagesDir : String) (opts : List ConfigOption) (cache0 : Cache)
    (hmr : 1 ≤ (NewConfiguration opts).maxRetries)
    (hdone : ∀ t, env.done t = false)
    (hpushAll : ∀ t r i, env.push t r i = none)
    (hidx : ∀ img ∈ lock.images,
      ∃ idx, buildImageIndex cache0 img imagesDir = Except.ok idx) :
    totalsOf (PushImages env lock imagesDir opts cache0).1.trace
      = [lock.images.length] ∧
    writeEvents (PushImages env lock imagesDir opts cache0).1.trace
      = lock.images.filterMap (fun img =>
          (buildImageIndex cache0 img imagesDir).toOption.map
            (fun idx => (img.image, idx))) ∧
    (PushImages env lock imagesDir opts cache0).2 = none ∧
    (∀ (cache : Cache) (dir : String) (image : ChartImage) (idx : ImageIndex),
      buildImageIndex cache image dir = Except.ok idx →
      idx.mediaType = DockerManifestList ∧
      idx.entries = image.digests.filterMap (loadEntry cache dir)) := by
  obtain ⟨hA, hB, hC, hD⟩ := pushLoop_ok env (NewConfiguration opts) imagesDir
    hmr hdone hpushAll lock.images
    (⟨0, cache0, [Event.setTotal lock.images.length,
      Event.updateTitle "Pushing Images"]⟩ : TransferState) hidx
  have hP : PushImages env lock imagesDir opts cache0
      = pushLoop env (NewConfiguration opts) imagesDir lock.images
          (⟨0, cache0, [Event.setTotal lock.images.length,
            Event.updateTitle "Pushing Images"]⟩ : TransferState) := rfl
  refine ⟨?_, ?_, ?_, fun cache dir image idx h =>
    buildImageIndex_ok cache image dir idx h⟩
  · rw [hP, hD]
    simp [totalsOf]
  · rw [hP, hC]
    simp [writeEvents]
  · rw [hP, hA]

/-- A cache holding the single-platform archive of the fixture digest. -/
def stImgW : StoredImage :=
  { content := "c1", config := { os := "linux", architecture := "amd64" } }

/-- A cache containing exactly the fixture image's tar file. -/
def cacheW : Cache :=
  fun k => if k = getImageTarFile "images" dW then some stImgW else none

/-- The manifest list the fixture push writes. -/
def idxPushed : ImageIndex :=
  { mediaType := DockerManifestList,
    entries := [{ content := "c1",
                  platform := { os := "linux", architecture := "amd64" } }] }

/-- Closed witness for C3: one chart image with one cached platform archive
pushes exactly one manifest list to its own reference, with total 1. -/
theorem push_progress_total_and_manifest_list_witness :
    totalsOf (PushImages envOK lockW "images" [] cacheW).1.trace = [1] ∧
    writeEvents (PushImages envOK lockW "images" [] cacheW).1.trace
      = [("repo/app", idxPushed)] ∧
    (PushImages envOK lockW "images" [] cacheW).2 = none := by
  have h := push_progress_total_and_manifest_list envOK lockW "images" []
    cacheW (by decide) (fun t => rfl) (fun t r i => rfl)
    (fun img him => by
      rcases List.mem_singleton.mp him with rfl
      exact ⟨idxPushed, rfl⟩)
  exact ⟨h.1.trans (by decide), h.2.1.trans (by decide), h.2.2.1⟩

/-! Helper lemmas: the retry loop of one push unit (claim C4). -/

/-- The trace segment produced by the retries of one all-failing push unit:
the retry warning for attempt `start` followed by its index write, and so
on. -/
def pushRetryTail (ref : String) (idx : ImageIndex) (maxRetries : Nat) :
    Nat → Nat → List Event
  | _, 0 => []
  | start, fuel + 1 =>
    Event.retryWarn start maxRetries :: Event.writeIndex ref idx
      :: pushRetryTail ref idx maxRetries (start + 1) fuel

/-- The full write/retry trace of one push unit all of whose attempts fail:
a first index write, then `maxRetries - 1` retries each reported before its
write. -/
def pushFailTrace (ref : String) (idx : ImageIndex) (maxRetries : Nat) :
    List Event :=
  Event.writeIndex ref idx :: pushRetryTail ref idx maxRetries 1 (maxRetries - 1)

lemma pushCallback_succ_done (env : Env) (cfg : Configuration)
    (imagesDir : String) (img : ChartImage) (t : Nat) (prev : Option String)
    (s : TransferState) (hd : env.done s.time = true) :
    pushCallback env cfg imagesDir img (t + 1) prev s = (s, prev) := by
  simp [pushCallback, hd]

lemma pushCallback_succ_live (env : Env) (cfg : Configuration)
    (imagesDir : String) (img : ChartImage) (t : Nat) (prev : Option String)
    (s : TransferState) (hd : env.done s.time = false) :
    pushCallback env cfg imagesDir img (t + 1) prev s
      = pushImage env img imagesDir
          (emit [Event.retryWarn (t + 1) cfg.maxRetries] s) := by
  simp [pushCallback, hd]

lemma pushImage_err (env : Env) (img : ChartImage) (imagesDir : String)
    (s : TransferState) (idx : ImageIndex) (e : String)
    (hidx : buildImageIndex s.cache img imagesDir = Except.ok idx)
    (hpe : env.push s.time img.image idx = some e) :
    pushImage env img imagesDir s
      = ({ time := s.time + 1, cache := s.cache,
           trace := s.trace ++ [Event.writeIndex img.image idx] },
         some ("failed to write image index: " ++ e)) := by
  unfold pushImage
  rw [hidx]
  simp only []
  rw [hpe]

/-- Once the cancellation signal is set, the remaining retry attempts of a
push unit return the previous error untouched. -/
lemma pushRetryLoop_spin (env : Env) (cfg : Configuration)
    (imagesDir : String) (img : ChartImage) (s : TransferState)
    (hd : env.done s.time = true) :
    ∀ (fuel t : Nat) (e : String),
      retryLoop (pushCallback env cfg imagesDir img) fuel (t + 1) (some e) s
        = (s, some e) := by
  intro fuel
  induction fuel with
  | zero => intro t e; rfl
  | succ n ih =>
    intro t e
    rw [retryLoop_succ, pushCallback_succ_done env cfg imagesDir img t (some e) s hd]
    exact ih (t + 1) e

/-- A push unit all of whose registry writes fail with the same error and
that is never cancelled: the retry loop reports each retry index right before
the corresponding write attempt. -/
lemma pushRetryLoop_allFail (env : Env) (cfg : Configuration)
    (imagesDir : String) (img : ChartImage) (idx : ImageIndex) (eB : String)
    (hdone : ∀ t, env.done t = false)
    (hperr : ∀ t, env.push t img.image idx = some eB) :
    ∀ (fuel t : Nat) (s : TransferState),
      buildImageIndex s.cache img imagesDir = Except.ok idx →
      retryLoop (pushCallback env cfg imagesDir img) fuel (t + 1)
          (some ("failed to write image index: " ++ eB)) s
        = ({ time := s.time + fuel, cache := s.cache,
             trace := s.trace
               ++ pushRetryTail img.image idx cfg.maxRetries (t + 1) fuel },
           some ("failed to write image index: " ++ eB)) := by
  intro fuel
  induction fuel with
  | zero =>
    intro t s _
    cases s
    simp [pushRetryTail, retryLoop]
  | succ n ih =>
    intro t s hidx
    rw [retryLoop_succ,
      pushCallback_succ_live env cfg imagesDir img t
        (some ("failed to write image index: " ++ eB)) s (hdone s.time),
      pushImage_err env img imagesDir
        (emit [Event.retryWarn (t + 1) cfg.maxRetries] s) idx eB
        (by simpa using hidx) (by simpa using hperr s.time)]
    simp only []
    rw [ih (t + 1)
      (⟨(emit [Event.retryWarn (t + 1) cfg.maxRetries] s).time + 1,
        (emit [Event.retryWarn (t + 1) cfg.maxRetries] s).cache,
        (emit [Event.retryWarn (t + 1) cfg.maxRetries] s).trace
          ++ [Event.writeIndex img.image idx]⟩ : TransferState)
      (by simpa using hidx)]
    simp [pushRetryTail, Nat.add_assoc, Nat.add_comm 1 n]

/-- A push unit whose first write fails while cancellation arrives during
that attempt: exactly one index write happens, no retry is reported, and the
unit ends with the last error wrapped with the image name. -/
lemma pushUnit_cancel_during (env : Env) (cfg : Configuration)
    (imagesDir : String) (img : ChartImage) (s : TransferState)
    (idx : ImageIndex) (e : String)
    (hmr : 1 ≤ cfg.maxRetries)
    (hd0 : env.done s.time = false)
    (hidx : buildImageIndex s.cache img imagesDir = Except.ok idx)
    (hpe : env.push s.time img.image idx = some e)
    (hd1 : env.done (s.time + 1) = true) :
    pushUnit env cfg imagesDir img s
      = ({ time := s.time + 1, cache := s.cache,
           trace := s.trace ++ [Event.add 1, Event.updateTitle (pushTitle img),
             Event.writeIndex img.image idx] },
         some (pushFailMsg img.name ("failed to write image index: " ++ e))) := by
  obtain ⟨fuel, hfuel⟩ : ∃ fuel, cfg.maxRetries = fuel + 1 :=
    ⟨cfg.maxRetries - 1, by omega⟩
  rw [pushUnit_live env cfg imagesDir img s hd0]
  rw [ExecuteWithRetry, hfuel, retryLoop_succ, pushCallback_zero,
    pushImage_err env img imagesDir
      (emit [Event.add 1, Event.updateTitle (pushTitle img)] s) idx e
      (by simpa using hidx) (by simpa using hpe)]
  cases fuel with
  | zero => simp [retryLoop]
  | succ n =>
    simp only []
    have hspin := pushRetryLoop_spin env cfg imagesDir img
      (⟨(emit [Event.add 1, Event.updateTitle (pushTitle img)] s).time + 1,
        (emit [Event.add 1, Event.updateTitle (pushTitle img)] s).cache,
        (emit [Event.add 1, Event.updateTitle (pushTitle img)] s).trace
          ++ [Event.writeIndex img.image idx]⟩ : TransferState)
      (by simpa using hd1) (n + 1) 0 ("failed to write image index: " ++ e)
    rw [hspin]
    simp

/-- A push unit all of whose attempts fail with the same write error and that
is never cancelled: `maxRetries` write attempts, each retry index reported
right before the next attempt, ending with the wrapped error. -/
lemma pushUnit_allFail (env : Env) (cfg : Configuration) (imagesDir : String)
    (img : ChartImage) (s : TransferState) (idx : ImageIndex) (eB : String)
    (hmr : 1 ≤ cfg.maxRetries)
    (hdone : ∀ t, env.done t = false)
    (hidx : buildImageIndex s.cache img imagesDir = Except.ok idx)
    (hperr : ∀ t, env.push t img.image idx = some eB) :
    pushUnit env cfg imagesDir img s
      = ({ time := s.time + cfg.maxRetries, cache := s.cache,
           trace := s.trace ++ [Event.add 1, Event.updateTitle (pushTitle img)]
             ++ pushFailTrace img.image idx cfg.maxRetries },
         some (pushFailMsg img.name ("failed to write image index: " ++ eB))) := by
  obtain ⟨fuel, hfuel⟩ : ∃ fuel, cfg.maxRetries = fuel + 1 :=
    ⟨cfg.maxRetries - 1, by omega⟩
  rw [pushUnit_live env cfg imagesDir img s (hdone s.time)]
  rw [ExecuteWithRetry, hfuel, retryLoop_succ, pushCallback_zero,
    pushImage_err env img imagesDir
      (emit [Event.add 1, Event.updateTitle (pushTitle img)] s) idx eB
      (by simpa using hidx) (by simpa using hperr s.time)]
  simp only []
  rw [pushRetryLoop_allFail env cfg imagesDir img idx eB hdone hperr fuel 0
    (⟨(emit [Event.add 1, Event.updateTitle (pushTitle img)] s).time + 1,
      (emit [Event.add 1, Event.updateTitle (pushTitle img)] s).cache,
      (emit [Event.add 1, Event.updateTitle (pushTitle img)] s).trace
        ++ [Event.writeIndex img.image idx]⟩ : TransferState)
    (by simpa using hidx)]
  rw [hfuel]
  simp [pushFailTrace, Nat.add_assoc, Nat.add_comm 1 fuel]

/-- C4: Every transfer unit in pull and push runs under a retry policy with a
configurable maximum attempt count whose default is 3 (`NewConfiguration`,
`WithMaxRetries`).  For pull units and push units alike: on a failed attempt,
if cancellation has been requested the unit aborts immediately surfacing the
last error instead of retrying (one registry call only, no retry report);
otherwise the retry attempt count is reported through the progress channel
right before the next attempt (`failTrace`/`pushFailTrace` interleave
`retryWarn k maxRetries` before the `k+1`-th registry call). -/
theorem transfer_retry_policy :
    (NewConfiguration []).maxRetries = 3 ∧
    (∀ n, (NewConfiguration [WithMaxRetries n]).maxRetries = n) ∧
    (∀ (env : Env) (cfg : Configuration) (imagesDir : String)
        (img : ChartImage) (d : DigestInfo) (s : TransferState) (e : String),
      1 ≤ cfg.maxRetries →
      env.done s.time = false →
      env.fetch s.time (pullRef img.image d) = Except.error e →
      env.done (s.time + 1) = true →
      pullUnit env cfg imagesDir img d s
        = ({ time := s.time + 1, cache := s.cache,
             trace := s.trace ++ [Event.add 1, Event.updateTitle (pullTitle img d),
               Event.fetchCall (pullRef img.image d)] },
           some (pullFailMsg img.name e))) ∧
    (∀ (env : Env) (cfg : Configuration) (imagesDir : String)
        (img : ChartImage) (d : DigestInfo) (s : TransferState) (eB : String),
      1 ≤ cfg.maxRetries →
      (∀ t, env.done t = false) →
      (∀ t, env.fetch t (pullRef img.image d) = Except.error eB) →
      pullUnit env cfg imagesDir img d s
        = ({ time := s.time + cfg.maxRetries, cache := s.cache,
             trace := s.trace ++ [Event.add 1, Event.updateTitle (pullTitle img d)]
               ++ failTrace (pullRef img.image d) cfg.maxRetries },
           some (pullFailMsg img.name eB))) ∧
    (∀ (env : Env) (cfg : Configuration) (imagesDir : String)
        (img : ChartImage) (s : TransferState) (idx : ImageIndex) (e : String),
      1 ≤ cfg.maxRetries →
      env.done s.time = false →
      buildImageIndex s.cache img imagesDir = Except.ok idx →
      env.push s.time img.image idx = some e →
      env.done (s.time + 1) = true →
      pushUnit env cfg imagesDir img s
        = ({ time := s.time + 1, cache := s.cache,
             trace := s.trace ++ [Event.add 1, Event.updateTitle (pushTitle img),
               Event.writeIndex img.image idx] },
           some (pushFailMsg img.name ("failed to write image index: " ++ e)))) ∧
    (∀ (env : Env) (cfg : Configuration) (imagesDir : String)
        (img : ChartImage) (s : TransferState) (idx : ImageIndex) (eB : String),
      1 ≤ cfg.maxRetries →
      (∀ t, env.done t = false) →
      buildImageIndex s.cache img imagesDir = Except.ok idx →
      (∀ t, env.push t img.image idx = some eB) →
      pushUnit env cfg imagesDir img s
        = ({ time := s.time + cfg.maxRetries, cache := s.cache,
             trace := s.trace ++ [Event.add 1, Event.updateTitle (pushTitle img)]
               ++ pushFailTrace img.image idx cfg.maxRetries },
           some (pushFailMsg img.name ("failed to write image index: " ++ eB)))) := by
  refine ⟨rfl, fun n => rfl, ?_, ?_, ?_, ?_⟩
  · intro env cfg imagesDir img d s e hmr hd0 hfe hd1
    exact pullUnit_cancel_during env cfg imagesDir img d s e hmr hd0 hfe hd1
  · intro env cfg imagesDir img d s eB hmr hdone hfail
    exact pullUnit_allFail env cfg imagesDir img d s eB hmr hdone hfail
  · intro env cfg imagesDir img s idx e hmr hd0 hidx hpe hd1
    exact pushUnit_cancel_during env cfg imagesDir img s idx e hmr hd0 hidx hpe hd1
  · intro env cfg imagesDir img s idx eB hmr hdone hidx hperr
    exact pushUnit_allFail env cfg imagesDir img s idx eB hmr hdone hidx hperr

/-- An initial push state over the fixture cache. -/
def stPushW : TransferState := { time := 0, cache := cacheW, trace := [] }

/-- A cancellation signal arriving after the first registry call, with all
registry calls failing. -/
def envPushCancel : Env :=
  { done := fun t => decide (1 ≤ t),
    fetch := fun _ _ => Except.error "boom",
    push := fun _ _ _ => some "boom" }

/-- No cancellation, all registry writes failing. -/
def envPushBoom : Env :=
  { done := fun _ => false,
    fetch := fun _ _ => Except.error "boom",
    push := fun _ _ _ => some "boom" }

/-- Closed witness for C4: the default is 3; for a pull unit and for a push
unit alike, cancellation arriving during the first failing attempt surfaces
the last error, and with no cancellation an all-failing unit surfaces the
wrapped error after its retries. -/
theorem transfer_retry_policy_witness :
    ((1 : Nat) ≤ (NewConfiguration []).maxRetries
      ∧ envCancel.done stW.time = false
      ∧ envCancel.fetch stW.time (pullRef imgW.image dW) = Except.error "boom"
      ∧ envCancel.done (stW.time + 1) = true
      ∧ buildImageIndex stPushW.cache imgW "images" = Except.ok idxPushed
      ∧ envPushCancel.push stPushW.time imgW.image idxPushed = some "boom") ∧
    (pullUnit envCancel (NewConfiguration []) "images" imgW dW stW).2
      = some (pullFailMsg imgW.name "boom") ∧
    (pullUnit envBoom (NewConfiguration []) "images" imgW dW stW).2
      = some (pullFailMsg imgW.name "boom") ∧
    (pushUnit envPushCancel (NewConfiguration []) "images" imgW stPushW).2
      = some (pushFailMsg imgW.name ("failed to write image index: " ++ "boom")) ∧
    (pushUnit envPushBoom (NewConfiguration []) "images" imgW stPushW).2
      = some (pushFailMsg imgW.name ("failed to write image index: " ++ "boom")) := by
  refine ⟨⟨by decide, by decide, rfl, by decide, rfl, rfl⟩, ?_, ?_, ?_, ?_⟩
  · rw [transfer_retry_policy.2.2.1 envCancel (NewConfiguration []) "images"
      imgW dW stW "boom" (by decide) (by decide) rfl (by decide)]
  · rw [transfer_retry_policy.2.2.2.1 envBoom (NewConfiguration []) "images"
      imgW dW stW "boom" (by decide) (fun t => rfl) (fun t => rfl)]
  · rw [transfer_retry_policy.2.2.2.2.1 envPushCancel (NewConfiguration [])
      "images" imgW stPushW idxPushed "boom" (by decide) (by decide) rfl rfl
      (by decide)]
  · rw [transfer_retry_policy.2.2.2.2.2 envPushBoom (NewConfiguration [])
      "images" imgW stPushW idxPushed "boom" (by decide) (fun t => rfl) rfl
      (fun t => rfl)]

/-! Helper lemmas: decomposing the pull loops around a failing unit
(claim C6). -/

lemma pullDigests_append (env : Env) (cfg : Configuration)
    (imagesDir : String) (img : ChartImage) :
    ∀ (ds1 ds2 : List DigestInfo) (s : TransferState),
      pullDigests env cfg imagesDir img (ds1 ++ ds2) s
        = match (pullDigests env cfg imagesDir img ds1 s).2 with
          | none => pullDigests env cfg imagesDir img ds2
              (pullDigests env cfg imagesDir img ds1 s).1
          | some e => ((pullDigests env cfg imagesDir img ds1 s).1, some e) := by
  intro ds1
  induction ds1 with
  | nil => intro ds2 s; simp [pullDigests]
  | cons d ds1 ih =>
    intro ds2 s
    rw [List.cons_append]
    rw [show pullDigests env cfg imagesDir img (d :: (ds1 ++ ds2)) s
        = (match (pullUnit env cfg imagesDir img d s).2 with
           | none => pullDigests env cfg imagesDir img (ds1 ++ ds2)
               (pullUnit env cfg imagesDir img d s).1
           | some e => ((pullUnit env cfg imagesDir img d s).1, some e))
      from rfl]
    rw [show pullDigests env cfg imagesDir img (d :: ds1) s
        = (match (pullUnit env cfg imagesDir img d s).2 with
           | none => pullDigests env cfg imagesDir img ds1
               (pullUnit env cfg imagesDir img d s).1
           | some e => ((pullUnit env cfg imagesDir img d s).1, some e))
      from rfl]
    cases h : (pullUnit env cfg imagesDir img d s).2 with
    | none => simp only []; exact ih ds2 _
    | some e => simp only []

lemma pullLoop_append (env : Env) (cfg : Configuration) (imagesDir : String) :
    ∀ (is1 is2 : List ChartImage) (s : TransferState),
      pullLoop env cfg imagesDir (is1 ++ is2) s
        = match (pullLoop env cfg imagesDir is1 s).2 with
          | none => pullLoop env cfg imagesDir is2
              (pullLoop env cfg imagesDir is1 s).1
          | some e => ((pullLoop env cfg imagesDir is1 s).1, some e) := by
  intro is1
  induction is1 with
  | nil => intro is2 s; simp [pullLoop]
  | cons img is1 ih =>
    intro is2 s
    rw [List.cons_append]
    rw [show pullLoop env cfg imagesDir (img :: (is1 ++ is2)) s
        = (match (pullDigests env cfg imagesDir img img.digests s).2 with
           | none => pullLoop env cfg imagesDir (is1 ++ is2)
               (pullDigests env cfg imagesDir img img.digests s).1
           | some e => ((pullDigests env cfg imagesDir img img.digests s).1, some e))
      from rfl]
    rw [show pullLoop env cfg imagesDir (img :: is1) s
        = (match (pullDigests env cfg imagesDir img img.digests s).2 with
           | none => pullLoop env cfg imagesDir is1
               (pullDigests env cfg imagesDir img img.digests s).1
           | some e => ((pullDigests env cfg imagesDir img img.digests s).1, some e))
      from rfl]
    cases h : (pullDigests env cfg imagesDir img img.digests s).2 with
    | none => simp only []; exact ih is2 _
    | some e => simp only []

/-- Trace extension of a digest sub-loop: its fetches all target digest
entries of the processed sub-list. -/
def DigestsExt (image : String) (ds : List DigestInfo)
    (s s2 : TransferState) : Prop :=
  ∃ es, s2.trace = s.trace ++ es ∧
    ∀ r ∈ fetchRefs es, ∃ d2 ∈ ds, r = pullRef image d2

lemma digestsExt_refl (image : String) (ds : List DigestInfo)
    (s : TransferState) : DigestsExt image ds s s :=
  ⟨[], by simp, by simp [fetchRefs]⟩

lemma pullDigests_dext (env : Env) (cfg : Configuration) (imagesDir : String)
    (img : ChartImage) :
    ∀ (ds : List DigestInfo) (s : TransferState),
      DigestsExt img.image ds s (pullDigests env cfg imagesDir img ds s).1 := by
  intro ds
  induction ds with
  | nil => intro s; exact digestsExt_refl _ _ _
  | cons d rest ih =>
    intro s
    obtain ⟨es1, he1, _, hf1⟩ := pullUnit_ext env cfg imagesDir img d s
    unfold pullDigests
    cases h : (pullUnit env cfg imagesDir img d s).2 with
    | some e =>
      simp only [h]
      exact ⟨es1, he1, fun r hr => ⟨d, by simp, hf1 r hr⟩⟩
    | none =>
      simp only [h]
      obtain ⟨es2, he2, hf2⟩ := ih (pullUnit env cfg imagesDir img d s).1
      refine ⟨es1 ++ es2, ?_, ?_⟩
      · rw [he2, he1, List.append_assoc]
      · intro r hr
        rw [fetchRefs_append] at hr
        rcases List.mem_append.mp hr with hr | hr
        · exact ⟨d, by simp, hf1 r hr⟩
        · obtain ⟨d2, hd2, hrr⟩ := hf2 r hr
          exact ⟨d2, by simp [hd2], hrr⟩

/-- C6 (amended): For every transfer unit whose retries are exhausted without
cancellation -- wherever it sits in the lock, after any number of successful
units -- the pull operation returns a fatal error that aborts the whole call:
the final trace ends with the failing unit's attempts (no subsequent unit is
attempted, so no requested artifact is silently skipped), every fetch of the
call targets either the failing unit or a unit preceding it, and the error
carries the offending image's name and the underlying cause (the digest and
platform are not part of the error context). -/
theorem pull_exhausted_retries_abort (env : Env) (lock : ImagesLock)
    (imagesDir : String) (opts : List ConfigOption) (cache0 : Cache)
    (pre : List ChartImage) (imgA : ChartImage) (rest : List ChartImage)
    (dpre : List DigestInfo) (d : DigestInfo) (drest : List DigestInfo)
    (eB : String)
    (hlock : lock.images = pre ++ imgA :: rest)
    (hdig : imgA.digests = dpre ++ d :: drest)
    (hmr : 1 ≤ (NewConfiguration opts).maxRetries)
    (hdone : ∀ t, env.done t = false)
    (hdet : ∀ t r, env.fetch t r = env.fetch 0 r)
    (hpre : ∀ img ∈ pre, ∀ d2 ∈ img.digests,
      ∃ st, env.fetch 0 (pullRef img.image d2) = Except.ok st)
    (hdpre : ∀ d2 ∈ dpre, ∃ st, env.fetch 0 (pullRef imgA.image d2) = Except.ok st)
    (hfail : ∀ t, env.fetch t (pullRef imgA.image d) = Except.error eB) :
    (PullImages env lock imagesDir opts cache0).2
      = some (pullFailMsg imgA.name eB) ∧
    (∃ (tr1 tr2 : List Event) (cF : Cache) (t2 : Nat),
      PullImages env lock imagesDir opts cache0
        = ({ time := t2 + (NewConfiguration opts).maxRetries, cache := cF,
             trace := [Event.setTotal (getNumberOfArtifacts lock.images),
                 Event.updateTitle "Pulling Images"]
               ++ tr1 ++ tr2
               ++ [Event.add 1, Event.updateTitle (pullTitle imgA d)]
               ++ failTrace (pullRef imgA.image d) (NewConfiguration opts).maxRetries },
           some (pullFailMsg imgA.name eB)) ∧
      (∀ r ∈ fetchRefs tr1, ∃ img ∈ pre, ∃ d2 ∈ img.digests,
        r = pullRef img.image d2) ∧
      (∀ r ∈ fetchRefs tr2, ∃ d2 ∈ dpre, r = pullRef imgA.image d2)) ∧
    ∀ r ∈ fetchRefs (PullImages env lock imagesDir opts cache0).1.trace,
      r = pullRef imgA.image d
      ∨ (∃ img ∈ pre, ∃ d2 ∈ img.digests, r = pullRef img.image d2)
      ∨ (∃ d2 ∈ dpre, r = pullRef imgA.image d2) := by
  rw [hlock]
  set s0 : TransferState :=
    ⟨0, cache0, [Event.setTotal (getNumberOfArtifacts (pre ++ imgA :: rest)),
      Event.updateTitle "Pulling Images"]⟩ with hs0def
  have h0 : PullImages env lock imagesDir opts cache0
      = pullLoop env (NewConfiguration opts) imagesDir (pre ++ imgA :: rest) s0 := by
    rw [hs0def, ← hlock]
    rfl
  obtain ⟨tr1, h1⟩ := pullLoop_ok env (NewConfiguration opts) imagesDir hmr
    hdone hdet pre s0 hpre
  set s1 : TransferState :=
    ⟨s0.time + getNumberOfArtifacts pre,
     applyWrites s0.cache (writesL env imagesDir pre), s0.trace ++ tr1⟩
    with hs1def
  have happ1 := pullLoop_append env (NewConfiguration opts) imagesDir pre
    (imgA :: rest) s0
  rw [h1] at happ1
  simp only [] at happ1
  obtain ⟨es1, hes1, _, hrefs1⟩ := pullLoop_ext env (NewConfiguration opts)
    imagesDir pre pre s0 (fun i hi => hi)
  rw [h1] at hes1
  have htr1 : tr1 = es1 :=
    List.append_cancel_left (show s0.trace ++ tr1 = s0.trace ++ es1 from hes1)
  have hstep : pullLoop env (NewConfiguration opts) imagesDir (imgA :: rest) s1
      = (match (pullDigests env (NewConfiguration opts) imagesDir imgA
            imgA.digests s1).2 with
         | none => pullLoop env (NewConfiguration opts) imagesDir rest
             (pullDigests env (NewConfiguration opts) imagesDir imgA
               imgA.digests s1).1
         | some e => ((pullDigests env (NewConfiguration opts) imagesDir imgA
             imgA.digests s1).1, some e)) := rfl
  rw [hdig] at hstep
  obtain ⟨tr2, h2⟩ := pullDigests_ok env (NewConfiguration opts) imagesDir
    imgA hmr hdone hdet dpre s1 hdpre
  set s2 : TransferState :=
    ⟨s1.time + dpre.length,
     applyWrites s1.cache (writesD env imagesDir imgA.image dpre),
     s1.trace ++ tr2⟩ with hs2def
  have happ2 := pullDigests_append env (NewConfiguration opts) imagesDir imgA
    dpre (d :: drest) s1
  rw [h2] at happ2
  simp only [] at happ2
  obtain ⟨es2, hes2, hrefs2⟩ := pullDigests_dext env (NewConfiguration opts)
    imagesDir imgA dpre s1
  rw [h2] at hes2
  have htr2 : tr2 = es2 :=
    List.append_cancel_left (show s1.trace ++ tr2 = s1.trace ++ es2 from hes2)
  have hunit := pullUnit_allFail env (NewConfiguration opts) imagesDir imgA d
    s2 eB hmr hdone hfail
  have h3 : pullDigests env (NewConfiguration opts) imagesDir imgA
      (d :: drest) s2
      = ({ time := s2.time + (NewConfiguration opts).maxRetries,
           cache := s2.cache,
           trace := s2.trace ++ [Event.add 1, Event.updateTitle (pullTitle imgA d)]
             ++ failTrace (pullRef imgA.image d) (NewConfiguration opts).maxRetries },
         some (pullFailMsg imgA.name eB)) := by
    rw [show pullDigests env (NewConfiguration opts) imagesDir imgA
        (d :: drest) s2
        = (match (pullUnit env (NewConfiguration opts) imagesDir imgA d s2).2 with
           | none => pullDigests env (NewConfiguration opts) imagesDir imgA drest
               (pullUnit env (NewConfiguration opts) imagesDir imgA d s2).1
           | some e => ((pullUnit env (NewConfiguration opts) imagesDir imgA d s2).1,
               some e))
      from rfl]
    rw [hunit]
  have hfin : PullImages env lock imagesDir opts cache0
      = ({ time := s2.time + (NewConfiguration opts).maxRetries,
           cache := s2.cache,
           trace := s2.trace ++ [Event.add 1, Event.updateTitle (pullTitle imgA d)]
             ++ failTrace (pullRef imgA.image d) (NewConfiguration opts).maxRetries },
         some (pullFailMsg imgA.name eB)) := by
    rw [h0, happ1, hstep, happ2, h3]
  have hs2tr : s2.trace = s1.trace ++ tr2 := by rw [hs2def]
  have hs1tr : s1.trace = s0.trace ++ tr1 := by rw [hs1def]
  refine ⟨by rw [hfin], ⟨tr1, tr2, s2.cache, s2.time, ?_, ?_, ?_⟩, ?_⟩
  · rw [hfin]
  · intro r hr
    rw [htr1] at hr
    exact hrefs1 r hr
  · intro r hr
    rw [htr2] at hr
    exact hrefs2 r hr
  · rw [hfin]
    intro r hr
    rw [show (s2.trace ++ [Event.add 1, Event.updateTitle (pullTitle imgA d)]
        ++ failTrace (pullRef imgA.image d) (NewConfiguration opts).maxRetries :
        List Event)
      = (s2.trace ++ [Event.add 1, Event.updateTitle (pullTitle imgA d)])
        ++ failTrace (pullRef imgA.image d) (NewConfiguration opts).maxRetries
      from rfl, fetchRefs_append] at hr
    rcases List.mem_append.mp hr with hr | hr
    · rw [fetchRefs_append] at hr
      rcases List.mem_append.mp hr with hr | hr
      · rw [hs2tr, fetchRefs_append] at hr
        rcases List.mem_append.mp hr with hr | hr
        · rw [hs1tr, fetchRefs_append] at hr
          rcases List.mem_append.mp hr with hr | hr
          · rw [hs0def] at hr
            simp [fetchRefs] at hr
          · rw [htr1] at hr
            exact Or.inr (Or.inl (hrefs1 r hr))
        · rw [htr2] at hr
          exact Or.inr (Or.inr (hrefs2 r hr))
      · simp [fetchRefs] at hr
    · exact Or.inl (fetchRefs_failTrace_mem _ _ r hr)

/-- A preceding digest entry that succeeds in the mixed fixture. -/
def dPre : DigestInfo := { arch := "linux/amd64", digest := "sha256:ppp" }

/-- A preceding chart image whose pull succeeds. -/
def imgPre : ChartImage :=
  { chart := "c", name := "pre", image := "repo/pre", digests := [dPre] }

/-- A two-image lock: a succeeding image followed by the failing one. -/
def lockMix : ImagesLock := { images := [imgPre, imgW] }

/-- A registry that serves the preceding image and fails the second. -/
def envMix : Env :=
  { done := fun _ => false,
    fetch := fun _ r =>
      if r = "repo/pre@sha256:ppp" then
        Except.ok { content := "blob",
                    config := { os := "linux", architecture := "amd64" } }
      else Except.error "boom",
    push := fun _ _ _ => none }

/-- Closed witness for the amended C6: with a successful unit before it, an
all-failing unit still aborts the call with the name-and-cause error. -/
theorem pull_exhausted_retries_abort_witness :
    (lockMix.images = [imgPre] ++ imgW :: [] ∧ imgW.digests = [] ++ dW :: []
      ∧ (1 : Nat) ≤ (NewConfiguration ([] : List ConfigOption)).maxRetries) ∧
    (PullImages envMix lockMix "images" [] cacheNil).2
      = some (pullFailMsg imgW.name "boom") := by
  refine ⟨⟨rfl, rfl, by decide⟩, ?_⟩
  exact (pull_exhausted_retries_abort envMix lockMix "images" [] cacheNil
    [imgPre] imgW [] [] dW [] "boom" rfl rfl (by decide)
    (fun t => rfl) (fun t r => rfl)
    (fun img him d2 hd2 => by
      rcases List.mem_singleton.mp him with rfl
      rcases List.mem_singleton.mp hd2 with rfl
      exact ⟨_, rfl⟩)
    (fun d2 hd2 => absurd hd2 (by simp))
    (fun t => rfl)).1

end DTH
